import Mathlib

/-!
Memory card game (`script.js`): embedding and verified properties.

The script keeps its state in closure variables and reacts to three kinds of
events: clicks on cards, one-shot `setTimeout` callbacks and the one-second
`setInterval` tick.  The embedding makes that state an explicit record `Game`,
makes the page environment the script talks to (the card elements with their
CSS classes, the pending timers) part of the record, and turns every function
of the script into a function on `Game`.
-/

namespace Flipcard

/-! ## Shuffle (`shuffleArray`, lines 65-71) -/

/-- The destructuring swap `[array[i], array[j]] = [array[j], array[i]]`:
the right-hand side is read first, then slot `i` and slot `j` are written. -/
def swap {α : Type} (array : List α) (i j : Nat) : List α :=
  match array[i]?, array[j]? with
  | some x, some y => (array.set i y).set j x
  | _, _ => array

/-- The body of the `for` loop of `shuffleArray`, run for the indices
`i, i-1, ..., 1`.  `random i` is the value `j` of
`Math.floor(Math.random() * (i + 1))` drawn in the iteration with index `i`. -/
def shuffleLoop {α : Type} (random : Nat → Nat) : Nat → List α → List α
  | 0, array => array
  | i + 1, array => shuffleLoop random i (swap array (i + 1) (random (i + 1)))

/-- Models `shuffleArray(array)`: `for (let i = array.length - 1; i > 0; i--)`. -/
def shuffleArray {α : Type} (random : Nat → Nat) (array : List α) : List α :=
  shuffleLoop random (array.length - 1) array

/-- The draws `Math.floor(Math.random() * (i + 1))` lie in `[0, i]`. -/
def ValidDraws (random : Nat → Nat) : Prop := ∀ i, random i ≤ i

/-- The choice sequences `(j_(n-1), ..., j_1)` of a shuffle of `n` cards: one
draw `j_i` in `[0, i]` for every loop index `i = 1, ..., n-1`; component `k`
is the draw for the index `k + 1`. -/
abbrev Draws (n : Nat) : Type := (k : Fin (n - 1)) → Fin (k.val + 2)

/-- The draw of a choice sequence at loop index `i`. -/
def Draws.at {n : Nat} (d : Draws n) (i : Nat) : Nat :=
  if h : 1 ≤ i ∧ i < n then (d ⟨i - 1, by omega⟩).val else 0

/-! ## Time formatting (`formatTime`, lines 254-258) -/

/-- Models `str.padStart(targetLength, padString)` for a one-character `padString`. -/
def padStart (targetLength : Nat) (padChar : Char) (str : String) : String :=
  if targetLength ≤ str.length then str
  else String.mk (List.replicate (targetLength - str.length) padChar) ++ str

/-- Position of the leading bit: `ilog2 n = e` with `2^e ≤ n < 2^(e+1)` for
`n ≥ 1` (and `0` for `n = 0`). -/
def ilog2Aux : Nat → Nat → Nat
  | 0, _ => 0
  | fuel + 1, n => if 2 ≤ n then ilog2Aux fuel (n / 2) + 1 else 0

def ilog2 (n : Nat) : Nat := ilog2Aux n n

/-- A natural number is a Number value (IEEE-754 binary64) when 53
significant bits hold it: it is a multiple of `2^(e-52)`, `e` the position of
its leading bit, and `e` is below 1024. -/
def isNumber (n : Nat) : Bool :=
  n % 2 ^ (ilog2 n - 52) == 0 && decide (ilog2 n < 1024)

/-- Models `Math.floor(num / den)` on Number values `num`, `den ≥ 1`: the
quotient is rounded to the nearest binary64 value, ties to the even
significand, and then floored.  For a quotient `x ≥ 1` with leading bit `e`
the significand is `x / 2^(e-52)` rounded to an integer `M`; the result is
`M * 2^(e-52)` floored.  A quotient below 1 floors to 0 unless it rounds to 1. -/
def floorOfQuotient (num den : Nat) : Nat :=
  let q := num / den
  if q = 0 then
    if (den - num) * 2 ^ 54 ≤ den then 1 else 0
  else
    let e := ilog2 q
    if e ≤ 52 then
      let scaled := num * 2 ^ (52 - e)
      let m := scaled / den
      let r := scaled % den
      let m := if den < 2 * r ∨ (den = 2 * r ∧ m % 2 = 1) then m + 1 else m
      m / 2 ^ (52 - e)
    else
      let unit := den * 2 ^ (e - 52)
      let m := num / unit
      let r := num % unit
      let m := if unit < 2 * r ∨ (unit = 2 * r ∧ m % 2 = 1) then m + 1 else m
      m * 2 ^ (e - 52)

/-- Models `x.toString()` for a non-negative integer Number `x` below `2^53`:
its decimal numeral.  Above, the digits are the shortest string that reads
back as `x` and its last digit is left to the implementation: not modelled
(`none`). -/
def numberToString (x : Nat) : Option String :=
  if x < 2 ^ 53 then some (toString x) else none

/-- Models `formatTime(seconds)` for a non-negative integer Number `seconds`;
`none` outside the modelled range (`seconds` no Number value, or a minutes
field of `2^53` or more).  The operator `%` on Numbers is exact. -/
def formatTime (seconds : Nat) : Option String :=
  if isNumber seconds then
    let minutes := floorOfQuotient seconds 60
    let remainingSeconds := seconds % 60
    match numberToString minutes, numberToString remainingSeconds with
    | some mm, some ss => some (padStart 2 '0' mm ++ ":" ++ padStart 2 '0' ss)
    | _, _ => none
  else none

/-- Specification side: the decimal numeral of `n`, most significant digit
first, built from the base-10 digits of `n`; the numeral of zero is `0`. -/
def decimalNumeral (n : Nat) : List Char :=
  if n = 0 then ['0'] else (Nat.digits 10 n).reverse.map Nat.digitChar

/-- Specification side: `MM:SS`, both fields left-padded with `0` to two digits. -/
def formatElapsed (s : Nat) : String :=
  String.mk (List.leftpad 2 '0' (decimalNumeral (s / 60)) ++ ':' ::
    List.leftpad 2 '0' (decimalNumeral (s % 60)))

/-! ## Game state -/

abbrev Emoji := String

/-- The constant `emojis` of line 13. -/
def emojis : List Emoji := ["🐶", "🐱", "🐭", "🐹", "🐰", "🦊", "🐻", "🐼"]

/-- A `.memory-card` element: its `data-emoji` and whether it carries the
classes `flipped` and `matched`. -/
structure CardElem where
  emoji : Emoji
  flipped : Bool
  matched : Bool
deriving DecidableEq, Repr

/-- The three kinds of one-shot callbacks the script hands to `setTimeout`.
The flip-back closure captures the two card elements `$card1`, `$card2`. -/
inductive Callback where
  | checkForMatch
  | flipBack (card1 card2 : Nat)
  | endGame
deriving DecidableEq, Repr

/-- The closure variables of lines 3-10, followed by the page environment.
A card element is named by its index in `elems`, the list of all card elements
created so far; the elements currently attached to `#game-board` are those
with index at least `boardStart`.  `flippedCards` holds element indices.
`timeouts` are the pending `setTimeout` callbacks, `intervals` the handles of
the running `setInterval` timers, `nextHandle` the next timer handle, and
`winModal` the log of the statistics shown by each call of `endGame`. -/
structure Game where
  cards : List Emoji
  flippedCards : List Nat
  matchedPairs : Nat
  moves : Nat
  timeElapsed : Nat
  gameTimer : Option Nat
  gameStarted : Bool
  isChecking : Bool
  elems : List CardElem
  boardStart : Nat
  timeouts : List Callback
  intervals : List Nat
  nextHandle : Nat
  winModal : List (Nat × Option String)
deriving DecidableEq, Repr

/-- The state when the script is loaded, before the first `initGame()`. -/
def pageLoad : Game :=
  { cards := [], flippedCards := [], matchedPairs := 0, moves := 0, timeElapsed := 0,
    gameTimer := none, gameStarted := false, isChecking := false,
    elems := [], boardStart := 0, timeouts := [], intervals := [], nextHandle := 1,
    winModal := [] }

/-! ## Page environment -/

def hasClassFlipped (g : Game) (c : Nat) : Bool :=
  match g.elems[c]? with
  | some e => e.flipped
  | none => false

def hasClassMatched (g : Game) (c : Nat) : Bool :=
  match g.elems[c]? with
  | some e => e.matched
  | none => false

def dataEmoji (g : Game) (c : Nat) : Option Emoji :=
  match g.elems[c]? with
  | some e => some e.emoji
  | none => none

/-- Models `$card.addClass('flipped')` / `$card.removeClass('flipped')`. -/
def setClassFlipped (b : Bool) (c : Nat) (g : Game) : Game :=
  { g with elems := g.elems.modify (fun e => { e with flipped := b }) c }

/-- Models `$card.addClass('matched')`. -/
def addClassMatched (c : Nat) (g : Game) : Game :=
  { g with elems := g.elems.modify (fun e => { e with matched := true }) c }

/-- The element is attached to `#game-board`, so it can be clicked. -/
def onBoard (g : Game) (c : Nat) : Bool :=
  decide (g.boardStart ≤ c) && decide (c < g.elems.length)

/-- Models `setTimeout(callback, delay)`; the delay only orders the callbacks. -/
def setTimeout (cb : Callback) (g : Game) : Game :=
  { g with timeouts := g.timeouts ++ [cb], nextHandle := g.nextHandle + 1 }

/-- Models `clearInterval(handle)`. -/
def clearInterval (handle : Nat) (g : Game) : Game :=
  { g with intervals := g.intervals.filter (fun h => h != handle) }

/-! ## The functions of the script -/

/-- Models `resetGameState()`, lines 40-59.  A timer handle is a positive integer,
hence truthy, so `if (gameTimer)` tests for a stored handle. -/
def resetGameState (g : Game) : Game :=
  let g := { g with flippedCards := [], matchedPairs := 0, moves := 0, timeElapsed := 0,
                    gameStarted := false, isChecking := false }
  match g.gameTimer with
  | some handle => { clearInterval handle g with gameTimer := none }
  | none => g

/-- Models `createGameBoard()`, lines 76-102: the board is emptied and one fresh
element is appended per entry of `cards`. -/
def createGameBoard (g : Game) : Game :=
  { g with boardStart := g.elems.length,
           elems := g.elems ++ g.cards.map (fun e => { emoji := e, flipped := false, matched := false }) }

/-- Models `initGame()`, lines 18-35, for the symbol list `symbols` (the constant
`emojis` in the script). -/
def initGame (symbols : List Emoji) (random : Nat → Nat) (g : Game) : Game :=
  let g := resetGameState g
  let g := { g with cards := shuffleArray random (symbols ++ symbols) }
  createGameBoard g

/-- Models `startGameTimer()`, lines 199-209. -/
def startGameTimer (g : Game) : Game :=
  { g with gameTimer := some g.nextHandle, intervals := g.intervals ++ [g.nextHandle],
           nextHandle := g.nextHandle + 1 }

/-- Models `handleCardClick($card)`, lines 134-158. -/
def handleCardClick (g : Game) (c : Nat) : Game :=
  let g := if !g.gameStarted then { startGameTimer g with gameStarted := true } else g
  let g := setClassFlipped true c g
  let g := { g with flippedCards := g.flippedCards ++ [c] }
  if g.flippedCards.length = 2 then
    setTimeout Callback.checkForMatch { g with moves := g.moves + 1, isChecking := true }
  else g

/-- The test of line 110. -/
def accepts (g : Game) (c : Nat) : Bool :=
  !g.isChecking && !hasClassFlipped g c && !hasClassMatched g c

/-- The delegated click handler of lines 109-113. -/
def cardClick (g : Game) (c : Nat) : Game :=
  if accepts g c then handleCardClick g c else g

/-- The branch of lines 169-181: the two cards match. -/
def cardsMatch (symbols : List Emoji) (card1 card2 : Nat) (g : Game) : Game :=
  let g := addClassMatched card2 (addClassMatched card1 g)
  let g := { g with matchedPairs := g.matchedPairs + 1 }
  if g.matchedPairs = symbols.length then setTimeout Callback.endGame g else g

/-- Lines 192-193: `flippedCards = []; isChecking = false`. -/
def allowNewClicks (g : Game) : Game :=
  { g with flippedCards := [], isChecking := false }

/-- Models `checkForMatch()`, lines 163-194.  Reading `.data` of an `undefined`
destructured card throws before anything is written. -/
def checkForMatch (symbols : List Emoji) (g : Game) : Except String Game :=
  match g.flippedCards[0]?, g.flippedCards[1]? with
  | some card1, some card2 =>
    match dataEmoji g card1, dataEmoji g card2 with
    | some emoji1, some emoji2 =>
      Except.ok (allowNewClicks
        (if emoji1 = emoji2 then cardsMatch symbols card1 card2 g
         else setTimeout (Callback.flipBack card1 card2) g))
    | _, _ => Except.error "no such element"
  | _, _ => Except.error "TypeError: Cannot read properties of undefined (reading 'data')"

/-- The mismatch callback of lines 184-188. -/
def flipBack (card1 card2 : Nat) (g : Game) : Game :=
  setClassFlipped false card2 (setClassFlipped false card1 g)

/-- Models `endGame()`, lines 214-233. -/
def endGame (g : Game) : Game :=
  let g := match g.gameTimer with
    | some handle => { clearInterval handle g with gameTimer := none }
    | none => g
  { g with winModal := g.winModal ++ [(g.moves, formatTime g.timeElapsed)] }

/-- The interval callback of lines 200-203. -/
def tick (g : Game) : Game :=
  { g with timeElapsed := g.timeElapsed + 1 }

/-! ## Events -/

/-- What can happen to the page: a restart (`#restart-btn`, `#play-again-btn`,
the `R` key) with the draws of its shuffle, a click on a card element, the
`k`-th pending one-shot callback firing, an interval firing. -/
inductive Event where
  | newGame (random : Nat → Nat)
  | click (c : Nat)
  | timeout (k : Nat)
  | tick (handle : Nat)

/-- Run the `k`-th pending `setTimeout` callback.  An exception thrown by the
callback ends the callback; the page goes on. -/
def fire (symbols : List Emoji) (g : Game) (k : Nat) : Game :=
  match g.timeouts[k]? with
  | none => g
  | some cb =>
    let g := { g with timeouts := g.timeouts.eraseIdx k }
    match cb with
    | Callback.checkForMatch =>
      match checkForMatch symbols g with
      | Except.ok g' => g'
      | Except.error _ => g
    | Callback.flipBack card1 card2 => flipBack card1 card2 g
    | Callback.endGame => endGame g

def step (symbols : List Emoji) (g : Game) : Event → Game
  | Event.newGame random => initGame symbols random g
  | Event.click c => if onBoard g c then cardClick g c else g
  | Event.timeout k => fire symbols g k
  | Event.tick handle => if handle ∈ g.intervals then tick g else g

def run (symbols : List Emoji) (g : Game) (events : List Event) : Game :=
  events.foldl (step symbols) g

/-- The event is a click that the handler of line 110 lets through. -/
def selects (g : Game) : Event → Bool
  | Event.click c => onBoard g c && accepts g c
  | _ => false

/-- Number of selections accepted since the last `newGame`, after one more event. -/
def countSelections (g : Game) (k : Nat) (ev : Event) : Nat :=
  match ev with
  | Event.newGame _ => 0
  | ev => if selects g ev then k + 1 else k

/-- An event the page can deliver: the draws of a shuffle are in range. -/
def Event.Legal : Event → Prop
  | Event.newGame random => ValidDraws random
  | _ => True

/-- The relation `Played symbols g k`: `g` is reachable from the first `initGame()` of the
page, and `k` selections have been accepted since the latest `initGame()`. -/
inductive Played (symbols : List Emoji) : Game → Nat → Prop
  | ready (random : Nat → Nat) (h : ValidDraws random) :
      Played symbols (initGame symbols random pageLoad) 0
  | next {g : Game} {k : Nat} (ev : Event) (h : ev.Legal) (hg : Played symbols g k) :
      Played symbols (step symbols g ev) (countSelections g k ev)

/-- Card states of the specification. -/
inductive CardState where
  | hidden
  | flipped
  | matched
deriving DecidableEq, Repr

/-- HIDDEN: neither class; MATCHED: class `matched`; FLIPPED: face up, not matched. -/
def cardState (g : Game) (c : Nat) : CardState :=
  if hasClassMatched g c then CardState.matched
  else if hasClassFlipped g c then CardState.flipped
  else CardState.hidden

/-- Draws under which `shuffleArray` swaps every slot with itself. -/
def identityDraws : Nat → Nat := fun i => i

/-- The deck `[A, B, A, B]` of the end-to-end scenario (P = 2). -/
def demoGame : Game := initGame ["A", "B"] identityDraws pageLoad

/-! ## Reachable states: invariant and scenarios -/

/-- What holds in every state reached with `k` selections accepted since the
latest `initGame()`. -/
structure Inv (g : Game) (k : Nat) : Prop where
  moves_eq : g.moves = k / 2
  idle : g.isChecking = false → g.flippedCards.length = k % 2
  busy : g.isChecking = true →
    g.flippedCards.length = 2 ∧ k % 2 = 0 ∧ Callback.checkForMatch ∈ g.timeouts
  started : g.gameStarted = true ↔ 0 < k
  timer : (g.intervals = [] ∧ g.gameTimer = none) ∨
    (∃ h, g.intervals = [h] ∧ g.gameTimer = some h ∧ g.gameStarted = true)
  valid : ∀ c, c ∈ g.flippedCards → c < g.elems.length

/-- Number of selections accepted since the latest `initGame()` after a list
of events, starting from `k`. -/
def selectionsAfter (symbols : List Emoji) (g : Game) (k : Nat) : List Event → Nat
  | [] => k
  | ev :: evs => selectionsAfter symbols (step symbols g ev) (countSelections g k ev) evs

/-- The cards on the board that are face up and not matched. -/
def faceUpUnmatched (g : Game) : List Nat :=
  (List.range g.elems.length).filter
    (fun c => onBoard g c && decide (cardState g c = CardState.flipped))

/-- Play the identity-shuffled deck of the script to the end: cards `i` and
`i + 8` carry the same emoji. -/
def winningEvents : List Event :=
  [Event.click 0, Event.click 8, Event.timeout 0, Event.click 1, Event.click 9, Event.timeout 0,
   Event.click 2, Event.click 10, Event.timeout 0, Event.click 3, Event.click 11, Event.timeout 0,
   Event.click 4, Event.click 12, Event.timeout 0, Event.click 5, Event.click 13, Event.timeout 0,
   Event.click 6, Event.click 14, Event.timeout 0, Event.click 7, Event.click 15, Event.timeout 0]

/-- The first game of the page with the identity-shuffled deck. -/
def firstGame : Game := initGame emojis identityDraws pageLoad

/-! ## Reachable states: invariant and scenarios -/

/-- A mismatched pair has been evaluated, its flip-back is still pending. -/
def mismatchEvents : List Event := [Event.click 0, Event.click 1, Event.timeout 0]

/-- Restart while the evaluation of a pair is pending. -/
def restartEvents : List Event :=
  [Event.click 0, Event.click 1, Event.newGame identityDraws]

/-- Restart while the evaluation of a pair is pending, then select a pair of
the new deck. -/
def restartSelectEvents : List Event :=
  [Event.click 0, Event.click 1, Event.newGame identityDraws, Event.click 16, Event.click 24]

/-- Win the first game, restart before the completion callback fires, and
select a card of the new deck. -/
def winRestartEvents : List Event :=
  winningEvents ++ [Event.newGame identityDraws, Event.click 16]

/-- The end-to-end scenario on the deck `[A, B, A, B]`: a mismatch with its
flip-back, two matches, the completion callback. -/
def demoEvents : List Event :=
  [Event.click 0, Event.click 1, Event.timeout 0, Event.timeout 0,
   Event.click 0, Event.click 2, Event.timeout 0,
   Event.click 1, Event.click 3, Event.timeout 0, Event.tick 1, Event.timeout 0]

/-! ## Reachable states: invariant and scenarios -/

/-- Every face-up, unmatched card on the board is accounted for: it is in
`flippedCards` or it is one of the two cards of a pending flip-back. -/
def FaceUpTracked (g : Game) : Prop :=
  ∀ c, onBoard g c = true → cardState g c = CardState.flipped →
    c ∈ g.flippedCards ∨ ∃ a b, Callback.flipBack a b ∈ g.timeouts ∧ (c = a ∨ c = b)

/-! ## Selection guard -/

theorem hasClassFlipped_setClassFlipped (b : Bool) (c d : Nat) (g : Game) :
    hasClassFlipped (setClassFlipped b c g) d =
      if c = d ∧ d < g.elems.length then b else hasClassFlipped g d := by
  unfold hasClassFlipped setClassFlipped
  simp only [List.getElem?_modify]
  by_cases hd : d < g.elems.length
  · rw [List.getElem?_eq_getElem hd]
    by_cases hcd : c = d <;> simp [hcd, hd]
  · rw [List.getElem?_eq_none (by omega)]
    simp [hd]

theorem hasClassMatched_setClassFlipped (b : Bool) (c d : Nat) (g : Game) :
    hasClassMatched (setClassFlipped b c g) d = hasClassMatched g d := by
  unfold hasClassMatched setClassFlipped
  simp only [List.getElem?_modify]
  cases h : g.elems[d]? with
  | none => simp
  | some e => by_cases hcd : c = d <;> simp [hcd]

theorem hasClassFlipped_addClassMatched (c d : Nat) (g : Game) :
    hasClassFlipped (addClassMatched c g) d = hasClassFlipped g d := by
  unfold hasClassFlipped addClassMatched
  simp only [List.getElem?_modify]
  cases h : g.elems[d]? with
  | none => simp
  | some e => by_cases hcd : c = d <;> simp [hcd]

theorem hasClassMatched_addClassMatched (c d : Nat) (g : Game) :
    hasClassMatched (addClassMatched c g) d =
      if c = d ∧ d < g.elems.length then true else hasClassMatched g d := by
  unfold hasClassMatched addClassMatched
  simp only [List.getElem?_modify]
  by_cases hd : d < g.elems.length
  · rw [List.getElem?_eq_getElem hd]
    by_cases hcd : c = d <;> simp [hcd, hd]
  · rw [List.getElem?_eq_none (by omega)]
    simp [hd]

/-- The fields `handleCardClick` leaves to the card and to `flippedCards`. -/
theorem handleCardClick_flippedCards (g : Game) (c : Nat) :
    (handleCardClick g c).flippedCards = g.flippedCards ++ [c] := by
  unfold handleCardClick
  simp only [setClassFlipped, setTimeout, startGameTimer]
  split <;> split <;> rfl

theorem handleCardClick_elems (g : Game) (c : Nat) :
    (handleCardClick g c).elems = (setClassFlipped true c g).elems := by
  unfold handleCardClick
  simp only [setClassFlipped, setTimeout, startGameTimer]
  split <;> split <;> rfl

theorem cardState_congr {g g' : Game} (h : g'.elems = g.elems) (c : Nat) :
    cardState g' c = cardState g c := by
  simp [cardState, hasClassMatched, hasClassFlipped, h]

theorem cardState_hidden_iff (g : Game) (c : Nat) :
    cardState g c = CardState.hidden ↔
      hasClassMatched g c = false ∧ hasClassFlipped g c = false := by
  unfold cardState
  cases hasClassMatched g c <;> cases hasClassFlipped g c <;> simp

theorem cardState_flipped_iff (g : Game) (c : Nat) :
    cardState g c = CardState.flipped ↔
      hasClassMatched g c = false ∧ hasClassFlipped g c = true := by
  unfold cardState
  cases hasClassMatched g c <;> cases hasClassFlipped g c <;> simp

theorem cardState_matched_iff (g : Game) (c : Nat) :
    cardState g c = CardState.matched ↔ hasClassMatched g c = true := by
  unfold cardState
  cases hasClassMatched g c <;> cases hasClassFlipped g c <;> simp

/-- C1. Selection guard: a click on a HIDDEN card while `isChecking` is false
turns the card to FLIPPED and appends it to `flippedCards`; a click on a
FLIPPED or MATCHED card, or any click while `isChecking` is true, leaves the
whole game state unchanged. -/
theorem cardClick_selection_guard (g : Game) (c : Nat) (hc : c < g.elems.length) :
    (g.isChecking = false → cardState g c = CardState.hidden →
      cardState (cardClick g c) c = CardState.flipped ∧
      (cardClick g c).flippedCards = g.flippedCards ++ [c]) ∧
    (g.isChecking = true ∨ cardState g c = CardState.flipped ∨
        cardState g c = CardState.matched → cardClick g c = g) := by
  constructor
  · intro hchk hst
    obtain ⟨hm, hf⟩ := (cardState_hidden_iff g c).1 hst
    have hacc : accepts g c = true := by simp [accepts, hchk, hm, hf]
    simp only [cardClick, hacc, if_true]
    refine ⟨?_, handleCardClick_flippedCards g c⟩
    rw [cardState_congr (handleCardClick_elems g c), cardState_flipped_iff]
    simp [hasClassMatched_setClassFlipped, hasClassFlipped_setClassFlipped, hm, hc]
  · intro h
    have hacc : accepts g c = false := by
      rcases h with h | h | h
      · simp [accepts, h]
      · simp [accepts, ((cardState_flipped_iff g c).1 h).2]
      · simp [accepts, (cardState_matched_iff g c).1 h]
    simp [cardClick, hacc]

theorem cardClick_selection_guard_witness :
    0 < demoGame.elems.length ∧
    (cardState (cardClick demoGame 0) 0 = CardState.flipped ∧
      (cardClick demoGame 0).flippedCards = demoGame.flippedCards ++ [0]) :=
  ⟨by decide, (cardClick_selection_guard demoGame 0 (by decide)).1 (by decide) (by decide)⟩

/-! ## Match evaluation -/

theorem elems_setClassFlipped_of_ne (b : Bool) (c d : Nat) (g : Game) (h : d ≠ c) :
    (setClassFlipped b c g).elems[d]? = g.elems[d]? := by
  unfold setClassFlipped
  simp only [List.getElem?_modify]
  cases g.elems[d]? with
  | none => rfl
  | some e => simp [Ne.symm h]

theorem elems_addClassMatched_of_ne (c d : Nat) (g : Game) (h : d ≠ c) :
    (addClassMatched c g).elems[d]? = g.elems[d]? := by
  unfold addClassMatched
  simp only [List.getElem?_modify]
  cases g.elems[d]? with
  | none => rfl
  | some e => simp [Ne.symm h]

theorem elems_length_setClassFlipped (b : Bool) (c : Nat) (g : Game) :
    (setClassFlipped b c g).elems.length = g.elems.length := by
  simp [setClassFlipped]

theorem elems_length_addClassMatched (c : Nat) (g : Game) :
    (addClassMatched c g).elems.length = g.elems.length := by
  simp [addClassMatched]

theorem dataEmoji_eq {g : Game} {c : Nat} {e : CardElem} (h : g.elems[c]? = some e) :
    dataEmoji g c = some e.emoji := by
  simp [dataEmoji, h]

/-- What the flip-back callback does to any state it runs in. -/
theorem flipBack_effect (card1 card2 : Nat) (h : Game) :
    (∀ d, hasClassMatched (flipBack card1 card2 h) d = hasClassMatched h d) ∧
    hasClassFlipped (flipBack card1 card2 h) card1 = false ∧
    hasClassFlipped (flipBack card1 card2 h) card2 = false ∧
    (∀ d, d ≠ card1 → d ≠ card2 → (flipBack card1 card2 h).elems[d]? = h.elems[d]?) := by
  refine ⟨?_, ?_, ?_, ?_⟩
  · intro d
    simp [flipBack, hasClassMatched_setClassFlipped]
  · simp only [flipBack, hasClassFlipped_setClassFlipped, elems_length_setClassFlipped]
    by_cases h1 : card1 < h.elems.length
    · by_cases h2 : card2 = card1 <;> simp [h1, h2]
    · have : hasClassFlipped h card1 = false := by
        simp [hasClassFlipped, List.getElem?_eq_none (Nat.le_of_not_lt h1)]
      simp [h1, this]
  · simp only [flipBack, hasClassFlipped_setClassFlipped, elems_length_setClassFlipped]
    by_cases h2 : card2 < h.elems.length
    · simp [h2]
    · have : hasClassFlipped h card2 = false := by
        simp [hasClassFlipped, List.getElem?_eq_none (Nat.le_of_not_lt h2)]
      by_cases h1 : card1 = card2 <;> simp [h2, h1, this]
  · intro d hd1 hd2
    simp [flipBack, elems_setClassFlipped_of_ne, hd1, hd2]

theorem cardsMatch_elems (symbols : List Emoji) (card1 card2 : Nat) (g : Game) :
    (cardsMatch symbols card1 card2 g).elems =
      (addClassMatched card2 (addClassMatched card1 g)).elems := by
  unfold cardsMatch
  simp only [setTimeout]
  split <;> rfl

theorem cardsMatch_matchedPairs (symbols : List Emoji) (card1 card2 : Nat) (g : Game) :
    (cardsMatch symbols card1 card2 g).matchedPairs = g.matchedPairs + 1 := by
  unfold cardsMatch
  simp only [setTimeout]
  split <;> rfl

/-- C2. Match evaluation: with two flipped, unresolved cards in `flippedCards`,
`checkForMatch` returns; on equal symbols both cards become MATCHED and
`matchedPairs` grows by exactly 1; on different symbols `matchedPairs` and all
card classes are unchanged, the flip-back callback for the two cards is
pending, and running it turns both cards to HIDDEN; in both cases no other
card element changes. -/
theorem checkForMatch_evaluates (symbols : List Emoji) (g : Game) (card1 card2 : Nat)
    (e1 e2 : CardElem) (hf : g.flippedCards = [card1, card2])
    (h1 : g.elems[card1]? = some e1) (h2 : g.elems[card2]? = some e2)
    (hs1 : cardState g card1 = CardState.flipped)
    (hs2 : cardState g card2 = CardState.flipped) :
    ∃ g', checkForMatch symbols g = Except.ok g' ∧
      (e1.emoji = e2.emoji →
        cardState g' card1 = CardState.matched ∧ cardState g' card2 = CardState.matched ∧
        g'.matchedPairs = g.matchedPairs + 1 ∧
        ∀ d, d ≠ card1 → d ≠ card2 → g'.elems[d]? = g.elems[d]?) ∧
      (e1.emoji ≠ e2.emoji →
        g'.matchedPairs = g.matchedPairs ∧ g'.elems = g.elems ∧
        g'.timeouts = g.timeouts ++ [Callback.flipBack card1 card2] ∧
        cardState (flipBack card1 card2 g') card1 = CardState.hidden ∧
        cardState (flipBack card1 card2 g') card2 = CardState.hidden ∧
        ∀ d, d ≠ card1 → d ≠ card2 → (flipBack card1 card2 g').elems[d]? = g.elems[d]?) := by
  have hl1 : card1 < g.elems.length := (List.getElem?_eq_some.1 h1).1
  have hl2 : card2 < g.elems.length := (List.getElem?_eq_some.1 h2).1
  have hrun : checkForMatch symbols g = Except.ok (allowNewClicks
      (if e1.emoji = e2.emoji then cardsMatch symbols card1 card2 g
       else setTimeout (Callback.flipBack card1 card2) g)) := by
    simp [checkForMatch, hf, dataEmoji_eq h1, dataEmoji_eq h2]
  refine ⟨_, hrun, ?_, ?_⟩
  · intro heq
    rw [if_pos heq]
    have hel : (allowNewClicks (cardsMatch symbols card1 card2 g)).elems =
        (addClassMatched card2 (addClassMatched card1 g)).elems :=
      cardsMatch_elems symbols card1 card2 g
    refine ⟨?_, ?_, cardsMatch_matchedPairs symbols card1 card2 g, ?_⟩
    · rw [cardState_congr hel, cardState_matched_iff]
      simp [hasClassMatched_addClassMatched, elems_length_addClassMatched, hl1]
    · rw [cardState_congr hel, cardState_matched_iff]
      simp [hasClassMatched_addClassMatched, elems_length_addClassMatched, hl2]
    · intro d hd1 hd2
      rw [hel, elems_addClassMatched_of_ne _ _ _ hd2, elems_addClassMatched_of_ne _ _ _ hd1]
  · intro hne
    rw [if_neg hne]
    obtain ⟨hm, hfl1, hfl2, hoth⟩ := flipBack_effect card1 card2
      (allowNewClicks (setTimeout (Callback.flipBack card1 card2) g))
    refine ⟨rfl, rfl, rfl, ?_, ?_, ?_⟩
    · rw [cardState_hidden_iff]
      refine ⟨?_, hfl1⟩
      rw [hm]
      exact ((cardState_flipped_iff g card1).1 hs1).1
    · rw [cardState_hidden_iff]
      refine ⟨?_, hfl2⟩
      rw [hm]
      exact ((cardState_flipped_iff g card2).1 hs2).1
    · intro d hd1 hd2
      rw [hoth d hd1 hd2]
      rfl

theorem checkForMatch_evaluates_witness :
    ∃ g', checkForMatch ["A", "B"] (run ["A", "B"] demoGame [Event.click 0, Event.click 2]) =
        Except.ok g' ∧
      cardState g' 0 = CardState.matched ∧ cardState g' 2 = CardState.matched ∧
      g'.matchedPairs = (run ["A", "B"] demoGame [Event.click 0, Event.click 2]).matchedPairs + 1 := by
  obtain ⟨g', hrun, hmatch, _⟩ := checkForMatch_evaluates ["A", "B"]
    (run ["A", "B"] demoGame [Event.click 0, Event.click 2]) 0 2
    { emoji := "A", flipped := true, matched := false }
    { emoji := "A", flipped := true, matched := false }
    (by decide) (by decide) (by decide) (by decide) (by decide)
  obtain ⟨a, b, c, _⟩ := hmatch rfl
  exact ⟨g', hrun, a, b, c⟩

/-! ## Shuffle -/

theorem swap_length {α : Type} (a : List α) (i j : Nat) : (swap a i j).length = a.length := by
  unfold swap
  split <;> simp

theorem swap_eq_set {α : Type} (a : List α) {i j : Nat} (hi : i < a.length) (hj : j < a.length) :
    swap a i j = (a.set i a[j]).set j a[i] := by
  simp [swap, List.getElem?_eq_getElem hi, List.getElem?_eq_getElem hj]

theorem swap_getElem? {α : Type} (a : List α) {i j : Nat} (hi : i < a.length)
    (hj : j < a.length) (k : Nat) :
    (swap a i j)[k]? = if k = j then a[i]? else if k = i then a[j]? else a[k]? := by
  rw [swap_eq_set a hi hj]
  simp only [List.getElem?_set, List.length_set]
  by_cases hkj : k = j
  · subst hkj
    simp [hj, List.getElem?_eq_getElem hi]
  · by_cases hki : k = i
    · subst hki
      simp [hkj, Ne.symm hkj, hi, List.getElem?_eq_getElem hj]
    · simp [hkj, hki, Ne.symm hkj, Ne.symm hki]

theorem swap_perm {α : Type} (a : List α) (i j : Nat) : (swap a i j).Perm a := by
  by_cases hi : i < a.length
  · by_cases hj : j < a.length
    · have h : swap a i j =
          List.ofFn (a.get ∘ (Equiv.swap (⟨i, hi⟩ : Fin a.length) ⟨j, hj⟩)) := by
        apply List.ext_getElem
        · simp [swap_length]
        · intro k h1 h2
          have hk : k < a.length := by simpa [swap_length] using h1
          apply Option.some.inj
          rw [← List.getElem?_eq_getElem h1, swap_getElem? a hi hj]
          simp only [List.getElem_ofFn, Function.comp, Equiv.swap_apply_def, List.get_eq_getElem]
          by_cases hkj : k = j
          · subst hkj
            by_cases hki : k = i
            · subst hki; simp
            · simp [hki, Fin.ext_iff, List.getElem?_eq_getElem hi]
          · by_cases hki : k = i
            · subst hki
              simp [hkj, Fin.ext_iff, List.getElem?_eq_getElem hj]
            · simp [hkj, hki, Fin.ext_iff, List.getElem?_eq_getElem hk]
      rw [h]
      have := Equiv.Perm.ofFn_comp_perm (Equiv.swap (⟨i, hi⟩ : Fin a.length) ⟨j, hj⟩) a.get
      simpa using this
    · simp [swap, List.getElem?_eq_none (Nat.le_of_not_lt hj)]
  · simp [swap, List.getElem?_eq_none (Nat.le_of_not_lt hi)]

theorem shuffleLoop_perm {α : Type} (random : Nat → Nat) (i : Nat) (a : List α) :
    (shuffleLoop random i a).Perm a := by
  induction i generalizing a with
  | zero => exact List.Perm.refl _
  | succ i ih => exact (ih _).trans (swap_perm a _ _)

theorem shuffleArray_perm {α : Type} (random : Nat → Nat) (a : List α) :
    (shuffleArray random a).Perm a :=
  shuffleLoop_perm random _ a

theorem shuffleLoop_length {α : Type} (random : Nat → Nat) (i : Nat) (a : List α) :
    (shuffleLoop random i a).length = a.length :=
  (shuffleLoop_perm random i a).length_eq

/-- Slots above the loop index are final: the remaining iterations touch
only slots `0..i`. -/
theorem shuffleLoop_getElem?_of_gt {α : Type} (random : Nat → Nat) (i : Nat) (a : List α)
    (hr : ∀ m, m ≤ i → random m ≤ m) (hi : i < a.length) (k : Nat) (hk : i < k) :
    (shuffleLoop random i a)[k]? = a[k]? := by
  induction i generalizing a with
  | zero => rfl
  | succ i ih =>
    have hj : random (i + 1) < a.length := lt_of_le_of_lt (hr (i + 1) le_rfl) hi
    show (shuffleLoop random i (swap a (i + 1) (random (i + 1))))[k]? = a[k]?
    rw [ih _ (fun m hm => hr m (by omega)) (by rw [swap_length]; omega) (by omega),
      swap_getElem? a hi hj]
    have h1 : k ≠ random (i + 1) := by have := hr (i + 1) le_rfl; omega
    have h2 : k ≠ i + 1 := by omega
    simp [h1, h2]

theorem shuffleLoop_congr {α : Type} (r r' : Nat → Nat) (i : Nat) (a : List α)
    (h : ∀ m, 1 ≤ m → m ≤ i → r m = r' m) : shuffleLoop r i a = shuffleLoop r' i a := by
  induction i generalizing a with
  | zero => rfl
  | succ i ih =>
    show shuffleLoop r i (swap a (i + 1) (r (i + 1))) =
      shuffleLoop r' i (swap a (i + 1) (r' (i + 1)))
    rw [h (i + 1) (by omega) le_rfl]
    exact ih _ (fun m h1 h2 => h m h1 (by omega))

/-- On pairwise distinct cards the result of the loop determines every draw. -/
theorem shuffleLoop_draws_unique {α : Type} (r r' : Nat → Nat) (i : Nat) (a : List α)
    (hnd : a.Nodup) (hi : i < a.length)
    (hr : ∀ m, m ≤ i → r m ≤ m) (hr' : ∀ m, m ≤ i → r' m ≤ m)
    (h : shuffleLoop r i a = shuffleLoop r' i a) :
    ∀ m, 1 ≤ m → m ≤ i → r m = r' m := by
  induction i generalizing a with
  | zero => intro m h1 h2; omega
  | succ i ih =>
    have hj : r (i + 1) < a.length := lt_of_le_of_lt (hr (i + 1) le_rfl) hi
    have hj' : r' (i + 1) < a.length := lt_of_le_of_lt (hr' (i + 1) le_rfl) hi
    have hlast : r (i + 1) = r' (i + 1) := by
      have e1 := shuffleLoop_getElem?_of_gt r i (swap a (i + 1) (r (i + 1)))
        (fun m hm => hr m (by omega)) (by rw [swap_length]; omega) (i + 1) (by omega)
      have e2 := shuffleLoop_getElem?_of_gt r' i (swap a (i + 1) (r' (i + 1)))
        (fun m hm => hr' m (by omega)) (by rw [swap_length]; omega) (i + 1) (by omega)
      have h' : shuffleLoop r i (swap a (i + 1) (r (i + 1))) =
          shuffleLoop r' i (swap a (i + 1) (r' (i + 1))) := h
      rw [h', e2, swap_getElem? a hi hj', swap_getElem? a hi hj] at e1
      have e3 : a[r' (i + 1)]? = a[r (i + 1)]? := by
        by_cases c1 : i + 1 = r' (i + 1) <;> by_cases c2 : i + 1 = r (i + 1)
        · rw [← c1, ← c2]
        · rw [if_pos c1, if_neg c2, if_pos rfl] at e1
          rw [← c1]; exact e1
        · rw [if_neg c1, if_pos rfl, if_pos c2] at e1
          rw [← c2]; exact e1
        · rw [if_neg c1, if_pos rfl, if_neg c2, if_pos rfl] at e1
          exact e1
      rw [List.getElem?_eq_getElem hj', List.getElem?_eq_getElem hj] at e3
      exact ((hnd.getElem_inj_iff).1 (Option.some.inj e3)).symm
    have h' : shuffleLoop r i (swap a (i + 1) (r (i + 1))) =
        shuffleLoop r' i (swap a (i + 1) (r (i + 1))) := by
      have h0 : shuffleLoop r i (swap a (i + 1) (r (i + 1))) =
          shuffleLoop r' i (swap a (i + 1) (r' (i + 1))) := h
      rw [h0, hlast]
    have hrec := ih (swap a (i + 1) (r (i + 1)))
      ((swap_perm a _ _).nodup_iff.2 hnd) (by rw [swap_length]; omega)
      (fun m hm => hr m (by omega)) (fun m hm => hr' m (by omega)) h'
    intro m h1 h2
    by_cases hm : m = i + 1
    · rw [hm]; exact hlast
    · exact hrec m h1 (by omega)

theorem Draws.at_le {n : Nat} (d : Draws n) (i : Nat) : d.at i ≤ i := by
  unfold Draws.at
  split
  · rename_i h
    have := (d ⟨i - 1, by omega⟩).isLt
    simp only at this
    omega
  · exact Nat.zero_le _

theorem Draws.validDraws {n : Nat} (d : Draws n) : ValidDraws d.at :=
  fun i => d.at_le i

theorem Draws.at_succ {n : Nat} (d : Draws n) (k : Fin (n - 1)) :
    d.at (k.val + 1) = (d k).val := by
  have hk := k.isLt
  unfold Draws.at
  rw [dif_pos (by omega)]
  have e : (⟨k.val + 1 - 1, by omega⟩ : Fin (n - 1)) = k := Fin.ext (by simp)
  rw [e]

theorem Draws.ext_at {n : Nat} (d d' : Draws n)
    (h : ∀ m, 1 ≤ m → m ≤ n - 1 → d.at m = d'.at m) : d = d' := by
  funext k
  have hk := k.isLt
  have := h (k.val + 1) (by omega) (by omega)
  rw [Draws.at_succ, Draws.at_succ] at this
  exact Fin.ext this

theorem prod_range_add_two (m : Nat) : ∏ i ∈ Finset.range m, (i + 2) = (m + 1).factorial := by
  induction m with
  | zero => rfl
  | succ m ih =>
    rw [Finset.prod_range_succ, ih, Nat.factorial_succ (m + 1)]
    ring

theorem card_draws (n : Nat) : Fintype.card (Draws n) = n.factorial := by
  rw [Fintype.card_pi]
  simp only [Fintype.card_fin]
  rw [Fin.prod_univ_eq_prod_range (fun i => i + 2) (n - 1), prod_range_add_two]
  cases n with
  | zero => rfl
  | succ n => rfl

theorem shuffleArray_injective {α : Type} (cards : List α) (hnd : cards.Nodup) :
    Function.Injective (fun d : Draws cards.length => shuffleArray d.at cards) := by
  intro d d' h
  by_cases hn : cards.length = 0
  · apply Draws.ext_at
    intro m h1 h2
    omega
  · apply Draws.ext_at
    exact shuffleLoop_draws_unique d.at d'.at (cards.length - 1) cards hnd (by omega)
      (fun m _ => d.at_le m) (fun m _ => d'.at_le m) h

theorem shuffleArray_bijective {α : Type} [DecidableEq α] (cards : List α) (hnd : cards.Nodup) :
    Function.Bijective (fun d : Draws cards.length =>
      (⟨shuffleArray d.at cards, List.mem_permutations.2 (shuffleArray_perm d.at cards)⟩ :
        { l : List α // l ∈ cards.permutations })) := by
  rw [Fintype.bijective_iff_injective_and_card]
  constructor
  · intro d d' h
    exact shuffleArray_injective cards hnd (Subtype.ext_iff.1 h)
  · rw [card_draws, Fintype.card_of_subtype cards.permutations.toFinset (fun x => List.mem_toFinset),
      List.toFinset_card_of_nodup (List.nodup_permutations cards hnd), List.length_permutations]

theorem initGame_cards (symbols : List Emoji) (random : Nat → Nat) (g : Game) :
    (initGame symbols random g).cards = shuffleArray random (symbols ++ symbols) := by
  simp [initGame, createGameBoard]

/-- C4. Deck multiset invariant: for distinct symbols and any draws of the
shuffle, the deck built by `initGame` has exactly `2P` cards, holds each
symbol exactly twice and nothing else; `shuffleArray` returns a permutation of
its input. -/
theorem initGame_deck_multiset (symbols : List Emoji) (hnd : symbols.Nodup)
    (random : Nat → Nat) (g : Game) :
    (initGame symbols random g).cards.length = 2 * symbols.length ∧
    (∀ s, s ∈ symbols → (initGame symbols random g).cards.count s = 2) ∧
    (∀ s, s ∉ symbols → (initGame symbols random g).cards.count s = 0) ∧
    (∀ array : List Emoji, (shuffleArray random array).Perm array) := by
  have hp := shuffleArray_perm random (symbols ++ symbols)
  rw [initGame_cards]
  refine ⟨?_, ?_, ?_, fun array => shuffleArray_perm random array⟩
  · rw [hp.length_eq, List.length_append]
    omega
  · intro s hs
    rw [hp.count_eq, List.count_append, List.count_eq_one_of_mem hnd hs]
  · intro s hs
    rw [hp.count_eq, List.count_append, List.count_eq_zero_of_not_mem hs]

theorem initGame_deck_multiset_witness :
    (initGame emojis identityDraws pageLoad).cards.length = 2 * emojis.length ∧
    (initGame emojis identityDraws pageLoad).cards.count "🦊" = 2 :=
  ⟨(initGame_deck_multiset emojis (by decide) identityDraws pageLoad).1,
   (initGame_deck_multiset emojis (by decide) identityDraws pageLoad).2.1
     "🦊" (by decide)⟩

/-- C7. Shuffle uniformity: on `n` pairwise distinct cards there are `n!`
choice sequences and `n!` permutations, every choice sequence yields a
permutation, every permutation comes from exactly one choice sequence, so
under independent uniform draws each permutation has probability `1 / n!`. -/
theorem shuffleArray_uniform {α : Type} [DecidableEq α] (cards : List α) (hnd : cards.Nodup) :
    Fintype.card (Draws cards.length) = cards.length.factorial ∧
    cards.permutations.toFinset.card = cards.length.factorial ∧
    (∀ d : Draws cards.length, ValidDraws d.at ∧ (shuffleArray d.at cards).Perm cards) ∧
    (∀ p : List α, p.Perm cards → ∃! d : Draws cards.length, shuffleArray d.at cards = p) ∧
    (∀ p : List α, p.Perm cards →
      ((Finset.univ.filter (fun d : Draws cards.length => shuffleArray d.at cards = p)).card : ℚ)
        / (Fintype.card (Draws cards.length) : ℚ) = 1 / (cards.length.factorial : ℚ)) := by
  have hbij := shuffleArray_bijective cards hnd
  have hex : ∀ p : List α, p.Perm cards →
      ∃! d : Draws cards.length, shuffleArray d.at cards = p := by
    intro p hp
    obtain ⟨d, hd⟩ := hbij.2 ⟨p, List.mem_permutations.2 hp⟩
    refine ⟨d, Subtype.ext_iff.1 hd, ?_⟩
    intro d' hd'
    exact shuffleArray_injective cards hnd (hd'.trans (Subtype.ext_iff.1 hd).symm)
  refine ⟨card_draws _, ?_, fun d => ⟨d.validDraws, shuffleArray_perm d.at cards⟩, hex, ?_⟩
  · rw [List.toFinset_card_of_nodup (List.nodup_permutations cards hnd), List.length_permutations]
  · intro p hp
    obtain ⟨d, hd, huniq⟩ := hex p hp
    have hone : (Finset.univ.filter
        (fun d : Draws cards.length => shuffleArray d.at cards = p)).card = 1 := by
      rw [Finset.card_eq_one]
      refine ⟨d, ?_⟩
      ext x
      simp only [Finset.mem_filter, Finset.mem_univ, true_and, Finset.mem_singleton]
      exact ⟨fun hx => huniq x hx, fun hx => hx ▸ hd⟩
    rw [hone, card_draws]
    simp

theorem shuffleArray_uniform_witness :
    [10, 20, 30].Nodup ∧ Fintype.card (Draws [10, 20, 30].length) = 6 ∧
    ∃! d : Draws [10, 20, 30].length, shuffleArray d.at [10, 20, 30] = [30, 10, 20] :=
  ⟨by decide, (shuffleArray_uniform [10, 20, 30] (by decide)).1,
   (shuffleArray_uniform [10, 20, 30] (by decide)).2.2.2.1 [30, 10, 20] (by decide)⟩

/-! ## Time formatting -/

theorem toDigitsCore_eq (fuel n : Nat) (ds : List Char) (h : n < fuel) :
    Nat.toDigitsCore 10 fuel n ds = decimalNumeral n ++ ds := by
  induction fuel generalizing n ds with
  | zero => omega
  | succ fuel ih =>
    unfold Nat.toDigitsCore
    by_cases h0 : n / 10 = 0
    · have hlt : n < 10 := by omega
      simp only [h0, if_true]
      unfold decimalNumeral
      by_cases hn : n = 0
      · subst hn; rfl
      · rw [if_neg hn, Nat.digits_def' (by norm_num) (Nat.pos_of_ne_zero hn), h0]
        simp
    · simp only [h0, if_false]
      rw [ih (n / 10) _ (by omega)]
      have hn : n ≠ 0 := by omega
      unfold decimalNumeral
      rw [if_neg h0, if_neg hn, Nat.digits_def' (by norm_num) (Nat.pos_of_ne_zero hn)]
      simp

theorem repr_eq_decimalNumeral (n : Nat) : Nat.repr n = String.mk (decimalNumeral n) := by
  unfold Nat.repr Nat.toDigits
  rw [toDigitsCore_eq _ _ _ (Nat.lt_succ_self n)]
  simp [List.asString]

theorem padStart_mk (t : Nat) (c : Char) (l : List Char) :
    padStart t c (String.mk l) = String.mk (List.leftpad t c l) := by
  unfold padStart List.leftpad
  by_cases h : t ≤ l.length
  · have : t - l.length = 0 := by omega
    simp [String.length, h, this]
  · simp only [String.length, h, if_false]
    rfl

theorem ilog2Aux_pow_le (fuel n : Nat) (h1 : 1 ≤ n) (hf : n ≤ fuel) :
    2 ^ ilog2Aux fuel n ≤ n := by
  induction fuel generalizing n with
  | zero => omega
  | succ fuel ih =>
    unfold ilog2Aux
    by_cases h2 : 2 ≤ n
    · rw [if_pos h2, Nat.pow_succ]
      have := ih (n / 2) (by omega) (by omega)
      omega
    · rw [if_neg h2]
      simpa using h1

theorem ilog2_lt_of_lt_pow (n k : Nat) (h : n < 2 ^ k) (hk : 1 ≤ k) : ilog2 n < k := by
  by_cases h0 : n = 0
  · subst h0
    show ilog2Aux 0 0 < k
    simp only [ilog2Aux]
    omega
  · have hle := ilog2Aux_pow_le n n (by omega) le_rfl
    have hlt : 2 ^ ilog2 n < 2 ^ k := lt_of_le_of_lt hle h
    exact (Nat.pow_lt_pow_iff_right (by norm_num)).1 hlt

theorem isNumber_of_lt (s : Nat) (h : s < 2 ^ 53) : isNumber s = true := by
  have he := ilog2_lt_of_lt_pow s 53 h (by norm_num)
  have h0 : ilog2 s - 52 = 0 := by omega
  simp [isNumber, h0]
  omega

/-- Below `2^53` the rounding of the quotient by 60 never reaches the next
integer: `Math.floor(seconds / 60)` is the integer quotient. -/
theorem floorOfQuotient_sixty (s : Nat) (h : s < 2 ^ 53) : floorOfQuotient s 60 = s / 60 := by
  unfold floorOfQuotient
  by_cases hq : s / 60 = 0
  · simp only [hq, if_true]
    have hs : s < 60 := by omega
    have : ¬ (60 - s) * 2 ^ 54 ≤ 60 := by
      have h1 : 1 * 2 ^ 54 ≤ (60 - s) * 2 ^ 54 := Nat.mul_le_mul_right _ (by omega)
      have h2 : (64 : Nat) ≤ 2 ^ 54 := by norm_num
      omega
    rw [if_neg this]
  · simp only [hq, if_false]
    have hq48 : s / 60 < 2 ^ 48 := by
      have : (2 : Nat) ^ 53 = 2 ^ 48 * 32 := by norm_num
      omega
    have he := ilog2_lt_of_lt_pow (s / 60) 48 hq48 (by norm_num)
    rw [if_pos (by omega)]
    have hP : 32 ≤ 2 ^ (52 - ilog2 (s / 60)) := by
      have : (2 : Nat) ^ 5 ≤ 2 ^ (52 - ilog2 (s / 60)) :=
        Nat.pow_le_pow_right (by norm_num) (by omega)
      simpa using this
    generalize 2 ^ (52 - ilog2 (s / 60)) = P at hP ⊢
    have hsplit : s * P = 60 * (s / 60 * P) + s % 60 * P := by
      have := Nat.div_add_mod s 60
      calc s * P = (60 * (s / 60) + s % 60) * P := by rw [this]
        _ = 60 * (s / 60 * P) + s % 60 * P := by ring
    have hB : s % 60 * P ≤ 59 * P := Nat.mul_le_mul_right _ (by omega)
    apply Nat.div_eq_of_lt_le
    · generalize s / 60 * P = A at hsplit ⊢
      generalize s % 60 * P = B at hsplit hB
      generalize s * P = N at hsplit ⊢
      split <;> omega
    · rw [Nat.add_mul, Nat.one_mul]
      generalize s / 60 * P = A at hsplit ⊢
      generalize s % 60 * P = B at hsplit hB
      generalize s * P = N at hsplit ⊢
      split <;> omega

theorem formatTime_of_lt (s : Nat) (h : s < 2 ^ 53) :
    formatTime s =
      some (padStart 2 '0' (toString (s / 60)) ++ ":" ++ padStart 2 '0' (toString (s % 60))) := by
  have h1 : s / 60 < 2 ^ 53 := lt_of_le_of_lt (Nat.div_le_self s 60) h
  have h2 : s % 60 < 2 ^ 53 := lt_of_le_of_lt (Nat.mod_le s 60) h
  simp only [formatTime, isNumber_of_lt s h, floorOfQuotient_sixty s h, numberToString, h1, h2,
    if_true]

theorem formatTime_eq_formatElapsed (s : Nat) (h : s < 2 ^ 53) :
    formatTime s = some (formatElapsed s) := by
  rw [formatTime_of_lt s h]
  unfold formatElapsed
  show some (padStart 2 '0' (Nat.repr (s / 60)) ++ ":" ++ padStart 2 '0' (Nat.repr (s % 60))) = _
  rw [repr_eq_decimalNumeral, repr_eq_decimalNumeral, padStart_mk, padStart_mk]
  show some (String.mk (_ ++ [':'] ++ _)) = _
  simp

theorem formatElapsed_eq_toDigits (s : Nat) :
    formatElapsed s = String.mk (List.leftpad 2 '0' (Nat.toDigits 10 (s / 60)) ++ ':' ::
      List.leftpad 2 '0' (Nat.toDigits 10 (s % 60))) := by
  unfold formatElapsed Nat.toDigits
  rw [toDigitsCore_eq _ _ _ (Nat.lt_succ_self _), toDigitsCore_eq _ _ _ (Nat.lt_succ_self _)]
  simp

theorem toDigits_eq_decimalNumeral (n : Nat) : Nat.toDigits 10 n = decimalNumeral n := by
  unfold Nat.toDigits
  rw [toDigitsCore_eq _ _ _ (Nat.lt_succ_self n)]
  simp

theorem toDigits_two_digits : ∀ m, m < 100 →
    List.leftpad 2 '0' (Nat.toDigits 10 m) = [Nat.digitChar (m / 10), Nat.digitChar (m % 10)] := by
  decide

theorem decimalNumeral_two_digits (m : Nat) (h : m < 100) :
    List.leftpad 2 '0' (decimalNumeral m) = [Nat.digitChar (m / 10), Nat.digitChar (m % 10)] := by
  rw [← toDigits_eq_decimalNumeral]
  exact toDigits_two_digits m h

/-- C6 (as stated) fails: integers are Number values, and at the Number
`67553994410557496` the quotient by 60, `1125899906842624.93...`, rounds to
`1125899906842625` before `Math.floor`, so the minutes field is not the
numeral of the integer quotient `1125899906842624`. -/
theorem formatTime_rounds_large_quotient :
    isNumber 67553994410557496 = true ∧
    67553994410557496 / 60 = 1125899906842624 ∧
    formatElapsed 67553994410557496 = "1125899906842624:56" ∧
    formatTime 67553994410557496 = some "1125899906842625:56" ∧
    formatTime 67553994410557496 ≠ some (formatElapsed 67553994410557496) := by
  have he : formatElapsed 67553994410557496 = "1125899906842624:56" := by
    rw [formatElapsed_eq_toDigits]
    decide
  refine ⟨by decide, by decide, he, by decide, ?_⟩
  rw [he]
  decide

/-- C6 (amended). Time formatting: for every integer `s` below `2^53`,
`formatTime s` is the decimal numeral of `s / 60` left-padded with `0` to two
digits, a colon, and the decimal numeral of `s % 60` left-padded with `0` to
two digits; the seconds field is always the two digits of a number in 00..59;
for `s < 6000` the result is the five characters `MM:SS`; `formatTime 0`,
`65`, `3599` are `00:00`, `01:05`, `59:59`. -/
theorem formatTime_spec (s : Nat) (hs : s < 2 ^ 53) :
    formatTime s = some (formatElapsed s) ∧
    (∃ mm : List Char, formatTime s = some (String.mk (mm ++
        [':', Nat.digitChar (s % 60 / 10), Nat.digitChar (s % 60 % 10)])) ∧
      mm = List.leftpad 2 '0' (decimalNumeral (s / 60)) ∧ 2 ≤ mm.length) ∧
    s % 60 / 10 < 6 ∧ s % 60 % 10 < 10 ∧
    (s < 6000 → ∃ str : String, formatTime s = some str ∧ str.length = 5 ∧
      str = String.mk [Nat.digitChar (s / 60 / 10), Nat.digitChar (s / 60 % 10), ':',
        Nat.digitChar (s % 60 / 10), Nat.digitChar (s % 60 % 10)]) ∧
    formatTime 0 = some "00:00" ∧ formatTime 65 = some "01:05" ∧
    formatTime 3599 = some "59:59" := by
  have hss := decimalNumeral_two_digits (s % 60) (by omega)
  refine ⟨formatTime_eq_formatElapsed s hs, ⟨_, ?_, rfl, ?_⟩, by omega, by omega, ?_, by decide,
    by decide, by decide⟩
  · rw [formatTime_eq_formatElapsed s hs, formatElapsed, hss]
  · simp only [List.leftpad, List.length_append, List.length_replicate]
    omega
  · intro h
    have hmm := decimalNumeral_two_digits (s / 60) (by omega)
    refine ⟨_, formatTime_eq_formatElapsed s hs, ?_, ?_⟩
    · rw [formatElapsed, hss, hmm]
      rfl
    · rw [formatElapsed, hss, hmm]
      rfl

theorem formatTime_spec_witness :
    125 < 2 ^ 53 ∧ formatTime 125 = some (formatElapsed 125) ∧
    ∃ str : String, formatTime 125 = some str ∧ str.length = 5 ∧
      str = String.mk [Nat.digitChar (125 / 60 / 10), Nat.digitChar (125 / 60 % 10), ':',
        Nat.digitChar (125 % 60 / 10), Nat.digitChar (125 % 60 % 10)] :=
  ⟨by decide, (formatTime_spec 125 (by decide)).1,
   (formatTime_spec 125 (by decide)).2.2.2.2.1 (by decide)⟩

/-! ## Reachable states -/

theorem resetGameState_fields (g : Game) :
    (resetGameState g).flippedCards = [] ∧ (resetGameState g).matchedPairs = 0 ∧
    (resetGameState g).moves = 0 ∧ (resetGameState g).timeElapsed = 0 ∧
    (resetGameState g).gameStarted = false ∧ (resetGameState g).isChecking = false ∧
    (resetGameState g).gameTimer = none ∧
    (resetGameState g).elems = g.elems ∧ (resetGameState g).timeouts = g.timeouts ∧
    (resetGameState g).intervals =
      (match g.gameTimer with
       | some handle => g.intervals.filter (fun h => h != handle)
       | none => g.intervals) := by
  unfold resetGameState clearInterval
  cases h : g.gameTimer <;> simp [h]

theorem initGame_fields (symbols : List Emoji) (random : Nat → Nat) (g : Game) :
    (initGame symbols random g).flippedCards = [] ∧ (initGame symbols random g).matchedPairs = 0 ∧
    (initGame symbols random g).moves = 0 ∧ (initGame symbols random g).timeElapsed = 0 ∧
    (initGame symbols random g).gameStarted = false ∧
    (initGame symbols random g).isChecking = false ∧
    (initGame symbols random g).gameTimer = none ∧
    (initGame symbols random g).timeouts = g.timeouts ∧
    (initGame symbols random g).intervals =
      (match g.gameTimer with
       | some handle => g.intervals.filter (fun h => h != handle)
       | none => g.intervals) := by
  obtain ⟨h1, h2, h3, h4, h5, h6, h7, -, h9, h10⟩ := resetGameState_fields g
  unfold initGame createGameBoard
  exact ⟨h1, h2, h3, h4, h5, h6, h7, h9, h10⟩

theorem handleCardClick_fields (g : Game) (c : Nat) :
    (handleCardClick g c).gameStarted = true ∧
    (handleCardClick g c).elems.length = g.elems.length ∧
    (handleCardClick g c).moves =
      (if g.flippedCards.length = 1 then g.moves + 1 else g.moves) ∧
    (handleCardClick g c).isChecking =
      (if g.flippedCards.length = 1 then true else g.isChecking) ∧
    (handleCardClick g c).timeouts =
      (if g.flippedCards.length = 1 then g.timeouts ++ [Callback.checkForMatch]
       else g.timeouts) ∧
    (handleCardClick g c).intervals =
      (if g.gameStarted then g.intervals else g.intervals ++ [g.nextHandle]) ∧
    (handleCardClick g c).gameTimer =
      (if g.gameStarted then g.gameTimer else some g.nextHandle) ∧
    (handleCardClick g c).matchedPairs = g.matchedPairs ∧
    (handleCardClick g c).timeElapsed = g.timeElapsed := by
  unfold handleCardClick
  cases hs : g.gameStarted <;> by_cases hl : g.flippedCards.length = 1 <;>
    simp [hs, hl, setClassFlipped, setTimeout, startGameTimer]

theorem checkForMatch_ok (symbols : List Emoji) (g : Game)
    (hl : g.flippedCards.length = 2) (hv : ∀ c, c ∈ g.flippedCards → c < g.elems.length) :
    ∃ card1 card2 e1 e2, g.flippedCards = [card1, card2] ∧
      g.elems[card1]? = some e1 ∧ g.elems[card2]? = some e2 ∧
      checkForMatch symbols g = Except.ok (allowNewClicks
        (if e1.emoji = e2.emoji then cardsMatch symbols card1 card2 g
         else setTimeout (Callback.flipBack card1 card2) g)) := by
  obtain ⟨card1, card2, hf⟩ := List.length_eq_two.1 hl
  have h1 : card1 < g.elems.length := hv card1 (by simp [hf])
  have h2 : card2 < g.elems.length := hv card2 (by simp [hf])
  refine ⟨card1, card2, g.elems[card1], g.elems[card2], hf,
    List.getElem?_eq_getElem h1, List.getElem?_eq_getElem h2, ?_⟩
  simp [checkForMatch, hf, dataEmoji, List.getElem?_eq_getElem h1, List.getElem?_eq_getElem h2]

theorem cardsMatch_fields (symbols : List Emoji) (card1 card2 : Nat) (g : Game) :
    (cardsMatch symbols card1 card2 g).moves = g.moves ∧
    (cardsMatch symbols card1 card2 g).gameStarted = g.gameStarted ∧
    (cardsMatch symbols card1 card2 g).intervals = g.intervals ∧
    (cardsMatch symbols card1 card2 g).gameTimer = g.gameTimer ∧
    (cardsMatch symbols card1 card2 g).timeElapsed = g.timeElapsed ∧
    (cardsMatch symbols card1 card2 g).winModal = g.winModal ∧
    (cardsMatch symbols card1 card2 g).elems.length = g.elems.length ∧
    (∀ cb, cb ∈ g.timeouts → cb ∈ (cardsMatch symbols card1 card2 g).timeouts) := by
  unfold cardsMatch
  simp only [setTimeout, addClassMatched]
  split
  · simp only [List.length_modify, List.mem_append, true_and]
    exact fun cb hcb => Or.inl hcb
  · simp

/-- A successful `checkForMatch` empties `flippedCards`, clears `isChecking`
and leaves counters and timers alone. -/
theorem checkForMatch_fields (symbols : List Emoji) (g g' : Game)
    (h : checkForMatch symbols g = Except.ok g') :
    g'.flippedCards = [] ∧ g'.isChecking = false ∧ g'.moves = g.moves ∧
    g'.gameStarted = g.gameStarted ∧ g'.intervals = g.intervals ∧
    g'.gameTimer = g.gameTimer ∧ g'.timeElapsed = g.timeElapsed ∧
    g'.winModal = g.winModal ∧ g'.elems.length = g.elems.length := by
  unfold checkForMatch at h
  split at h
  · split at h
    · injection h with h
      subst h
      rename_i card1 card2 _ _ _ _ emoji1 emoji2 _ _
      obtain ⟨c1, c2, c3, c4, c5, c6, c7, -⟩ := cardsMatch_fields symbols card1 card2 g
      by_cases he : emoji1 = emoji2
      · rw [if_pos he]
        exact ⟨rfl, rfl, c1, c2, c3, c4, c5, c6, c7⟩
      · rw [if_neg he]
        exact ⟨rfl, rfl, rfl, rfl, rfl, rfl, rfl, rfl, rfl⟩
    · cases h
  · cases h

theorem checkForMatch_error_length (symbols : List Emoji) (g : Game) (msg : String)
    (h : checkForMatch symbols g = Except.error msg)
    (hv : ∀ c, c ∈ g.flippedCards → c < g.elems.length) : g.flippedCards.length ≠ 2 := by
  intro hl
  obtain ⟨_, _, _, _, _, _, _, hok⟩ := checkForMatch_ok symbols g hl hv
  rw [hok] at h
  cases h

theorem endGame_fields (g : Game) :
    (endGame g).flippedCards = g.flippedCards ∧ (endGame g).isChecking = g.isChecking ∧
    (endGame g).moves = g.moves ∧ (endGame g).gameStarted = g.gameStarted ∧
    (endGame g).elems = g.elems ∧ (endGame g).timeouts = g.timeouts ∧
    (endGame g).gameTimer = none ∧
    (endGame g).intervals =
      (match g.gameTimer with
       | some handle => g.intervals.filter (fun h => h != handle)
       | none => g.intervals) := by
  unfold endGame clearInterval
  cases h : g.gameTimer <;> simp [h]

theorem timer_cleared (g : Game)
    (ht : (g.intervals = [] ∧ g.gameTimer = none) ∨
      (∃ h, g.intervals = [h] ∧ g.gameTimer = some h ∧ g.gameStarted = true)) :
    (match g.gameTimer with
     | some handle => g.intervals.filter (fun h => h != handle)
     | none => g.intervals) = [] := by
  rcases ht with ⟨h1, h2⟩ | ⟨h, h1, h2, _⟩
  · simp [h1, h2]
  · simp [h1, h2]

theorem inv_initGame (symbols : List Emoji) (random : Nat → Nat) (g : Game)
    (ht : (g.intervals = [] ∧ g.gameTimer = none) ∨
      (∃ h, g.intervals = [h] ∧ g.gameTimer = some h ∧ g.gameStarted = true)) :
    Inv (initGame symbols random g) 0 := by
  obtain ⟨h1, -, h3, -, h5, h6, h7, -, h10⟩ := initGame_fields symbols random g
  rw [timer_cleared g ht] at h10
  refine ⟨by simp [h3], fun _ => by simp [h1], fun h => by simp [h6] at h, by simp [h5],
    Or.inl ⟨h10, h7⟩, fun c hc => by simp [h1] at hc⟩

theorem inv_cardClick (g : Game) (k : Nat) (c : Nat) (hinv : Inv g k)
    (hb : c < g.elems.length) (hacc : accepts g c = true) :
    Inv (cardClick g c) (k + 1) := by
  have hchk : g.isChecking = false := by
    unfold accepts at hacc
    cases h : g.isChecking <;> simp_all
  have hlen := hinv.idle hchk
  obtain ⟨f1, f2, f3, f4, f5, f6, f7, -, -⟩ := handleCardClick_fields g c
  have ff := handleCardClick_flippedCards g c
  simp only [cardClick, hacc, if_true]
  refine ⟨?_, ?_, ?_, by simp [f1], ?_, ?_⟩
  · rw [f3, hlen, hinv.moves_eq]
    split <;> omega
  · intro h
    rw [f4] at h
    rw [ff, List.length_append, hlen]
    split at h
    · cases h
    · simp only [List.length_singleton]
      rw [hlen] at *
      omega
  · intro h
    rw [f4, hchk] at h
    rw [ff, List.length_append, f5, hlen]
    rw [hlen] at h
    split at h
    · rename_i h1
      rw [if_pos h1]
      refine ⟨by simp [h1], by omega, by simp⟩
    · cases h
  · rw [f6, f7, f1]
    cases hs : g.gameStarted
    · have hk : ¬ 0 < k := fun h => by
        have := hinv.started.2 h
        rw [hs] at this
        cases this
      rcases hinv.timer with ⟨h1, h2⟩ | ⟨h, h1, h2, h3⟩
      · exact Or.inr ⟨g.nextHandle, by simp [h1], by simp, rfl⟩
      · rw [hs] at h3
        cases h3
    · rcases hinv.timer with ⟨h1, h2⟩ | ⟨h, h1, h2, h3⟩
      · exact Or.inl ⟨by simp [h1], by simp [h2]⟩
      · exact Or.inr ⟨h, by simp [h1], by simp [h2], rfl⟩
  · intro d hd
    rw [ff] at hd
    rw [f2]
    rcases List.mem_append.1 hd with hd | hd
    · exact hinv.valid d hd
    · simp at hd
      omega

/-- With fewer than two cards in `flippedCards`, `checkForMatch` throws. -/
theorem checkForMatch_short (symbols : List Emoji) (g : Game)
    (h : g.flippedCards.length < 2) : ∃ msg, checkForMatch symbols g = Except.error msg := by
  unfold checkForMatch
  cases hfc : g.flippedCards with
  | nil => exact ⟨_, rfl⟩
  | cons a t =>
    cases t with
    | nil => exact ⟨_, rfl⟩
    | cons b rest =>
      have hl : g.flippedCards.length = rest.length + 2 := by rw [hfc]; rfl
      omega

theorem mem_eraseIdx_of_ne {cb cb' : Callback} {l : List Callback} {i : Nat}
    (hm : cb ∈ l) (hi : l[i]? = some cb') (hne : cb ≠ cb') : cb ∈ l.eraseIdx i := by
  obtain ⟨n, hn⟩ := List.mem_iff_getElem?.1 hm
  refine List.mem_eraseIdx_iff_getElem?.2 ⟨n, ?_, hn⟩
  intro h
  subst h
  rw [hn] at hi
  exact hne (Option.some.inj hi)

theorem flipBack_fields (card1 card2 : Nat) (g : Game) :
    (flipBack card1 card2 g).flippedCards = g.flippedCards ∧
    (flipBack card1 card2 g).isChecking = g.isChecking ∧
    (flipBack card1 card2 g).moves = g.moves ∧
    (flipBack card1 card2 g).gameStarted = g.gameStarted ∧
    (flipBack card1 card2 g).intervals = g.intervals ∧
    (flipBack card1 card2 g).gameTimer = g.gameTimer ∧
    (flipBack card1 card2 g).timeouts = g.timeouts ∧
    (flipBack card1 card2 g).elems.length = g.elems.length := by
  simp [flipBack, setClassFlipped]

theorem inv_fire (symbols : List Emoji) (g : Game) (k i : Nat) (hinv : Inv g k) :
    Inv (fire symbols g i) k := by
  unfold fire
  cases hcb : g.timeouts[i]? with
  | none => exact hinv
  | some cb =>
    cases cb with
    | checkForMatch =>
      simp only
      cases hrun : checkForMatch symbols { g with timeouts := g.timeouts.eraseIdx i } with
      | error msg =>
        simp only
        have hlen := checkForMatch_error_length symbols _ msg hrun hinv.valid
        refine ⟨hinv.moves_eq, hinv.idle, ?_, hinv.started, hinv.timer, hinv.valid⟩
        intro h
        exact absurd (hinv.busy h).1 hlen
      | ok g' =>
        simp only
        obtain ⟨f1, f2, f3, f4, f5, f6, -, -, -⟩ := checkForMatch_fields symbols _ g' hrun
        refine ⟨by rw [f3]; exact hinv.moves_eq, ?_, ?_, by rw [f4]; exact hinv.started, ?_, ?_⟩
        · intro _
          rw [f1]
          cases hc : g.isChecking
          · have h0 := hinv.idle hc
            obtain ⟨msg, hmsg⟩ := checkForMatch_short symbols
              { g with timeouts := g.timeouts.eraseIdx i } (by
                show g.flippedCards.length < 2
                rw [h0]; omega)
            rw [hmsg] at hrun
            cases hrun
          · simp [(hinv.busy hc).2.1]
        · intro h
          rw [f2] at h
          cases h
        · rw [f5, f6, f4]
          exact hinv.timer
        · intro c hc
          rw [f1] at hc
          cases hc
    | flipBack card1 card2 =>
      simp only
      obtain ⟨f1, f2, f3, f4, f5, f6, f7, f8⟩ :=
        flipBack_fields card1 card2 { g with timeouts := g.timeouts.eraseIdx i }
      refine ⟨by rw [f3]; exact hinv.moves_eq, by rw [f1, f2]; exact hinv.idle, ?_,
        by rw [f4]; exact hinv.started, by rw [f4, f5, f6]; exact hinv.timer,
        by rw [f1, f8]; exact hinv.valid⟩
      intro h
      rw [f2] at h
      rw [f1, f7]
      obtain ⟨b1, b2, b3⟩ := hinv.busy h
      exact ⟨b1, b2, mem_eraseIdx_of_ne b3 hcb (by simp)⟩
    | endGame =>
      simp only
      obtain ⟨f1, f2, f3, f4, f5, f6, f7, f8⟩ :=
        endGame_fields { g with timeouts := g.timeouts.eraseIdx i }
      refine ⟨by rw [f3]; exact hinv.moves_eq, by rw [f1, f2]; exact hinv.idle, ?_,
        by rw [f4]; exact hinv.started, ?_, by rw [f1, f5]; exact hinv.valid⟩
      · intro h
        rw [f2] at h
        rw [f1, f6]
        obtain ⟨b1, b2, b3⟩ := hinv.busy h
        exact ⟨b1, b2, mem_eraseIdx_of_ne b3 hcb (by simp)⟩
      · refine Or.inl ⟨?_, f7⟩
        rw [f8]
        exact timer_cleared g hinv.timer

theorem inv_step (symbols : List Emoji) (g : Game) (k : Nat) (ev : Event) (hinv : Inv g k) :
    Inv (step symbols g ev) (countSelections g k ev) := by
  cases ev with
  | newGame random => exact inv_initGame symbols random g hinv.timer
  | click c =>
    simp only [step, countSelections, selects]
    by_cases hb : onBoard g c = true
    · by_cases ha : accepts g c = true
      · have hlt : c < g.elems.length := by
          simp [onBoard] at hb
          exact hb.2
        simpa [hb, ha] using inv_cardClick g k c hinv hlt ha
      · simpa [hb, ha, cardClick] using hinv
    · simpa [hb] using hinv
  | timeout i => exact inv_fire symbols g k i hinv
  | tick handle =>
    simp only [step, countSelections, selects]
    split
    · exact ⟨hinv.moves_eq, hinv.idle, hinv.busy, hinv.started, hinv.timer, hinv.valid⟩
    · simpa using hinv

theorem inv_pageLoad (symbols : List Emoji) (random : Nat → Nat) :
    Inv (initGame symbols random pageLoad) 0 :=
  inv_initGame symbols random pageLoad (Or.inl ⟨rfl, rfl⟩)

theorem Played.inv {symbols : List Emoji} {g : Game} {k : Nat} (h : Played symbols g k) :
    Inv g k := by
  induction h with
  | ready random _ => exact inv_pageLoad symbols random
  | next ev _ _ ih => exact inv_step symbols _ _ ev ih

theorem played_run (symbols : List Emoji) (evs : List Event) :
    ∀ (g : Game) (k : Nat), Played symbols g k → (∀ ev, ev ∈ evs → ev.Legal) →
      Played symbols (run symbols g evs) (selectionsAfter symbols g k evs) := by
  induction evs with
  | nil => intro g k h _; exact h
  | cons ev evs ih =>
    intro g k h hl
    exact ih _ _ (Played.next ev (hl ev (List.mem_cons_self _ _)) h)
      (fun e he => hl e (List.mem_cons_of_mem _ he))

theorem validDraws_identity : ValidDraws identityDraws := fun _ => le_rfl

/-! ## Move counting -/

/-- C3. Move counting: an accepted selection adds exactly 1 to `moves` when
`flippedCards` had length 1 before it and leaves `moves` unchanged otherwise
(in particular for the first card of a turn); in every state reachable from
the page load by restarts, clicks and timer callbacks, `moves` equals
`k / 2`, `k` being the number of selections accepted since the latest
`initGame()`. -/
theorem moves_count (symbols : List Emoji) :
    (∀ (g : Game) (c : Nat), accepts g c = true →
      (g.flippedCards.length = 1 → (cardClick g c).moves = g.moves + 1) ∧
      (g.flippedCards.length ≠ 1 → (cardClick g c).moves = g.moves)) ∧
    (∀ (g : Game) (k : Nat), Played symbols g k → g.moves = k / 2) := by
  refine ⟨?_, fun g k h => h.inv.moves_eq⟩
  intro g c hacc
  have hm := (handleCardClick_fields g c).2.2.1
  simp only [cardClick, hacc, if_true]
  constructor
  · intro h1
    rw [hm, if_pos h1]
  · intro h1
    rw [hm, if_neg h1]

theorem moves_count_witness :
    (run ["A", "B"] demoGame
      [Event.click 0, Event.click 1, Event.timeout 0, Event.click 2]).moves = 3 / 2 :=
  (moves_count ["A", "B"]).2 _ 3
    (played_run ["A", "B"] [Event.click 0, Event.click 1, Event.timeout 0, Event.click 2]
      demoGame 0 (Played.ready identityDraws validDraws_identity) (by simp [Event.Legal]))

/-! ## Timer -/

theorem fire_intervals (symbols : List Emoji) (g : Game) (i handle : Nat)
    (h : handle ∈ (fire symbols g i).intervals) : handle ∈ g.intervals := by
  unfold fire at h
  cases hcb : g.timeouts[i]? with
  | none => simpa [hcb] using h
  | some cb =>
    rw [hcb] at h
    cases cb with
    | checkForMatch =>
      simp only at h
      cases hrun : checkForMatch symbols { g with timeouts := g.timeouts.eraseIdx i } with
      | error msg => simpa [hrun] using h
      | ok g' =>
        rw [hrun] at h
        simp only at h
        rw [(checkForMatch_fields symbols _ g' hrun).2.2.2.2.1] at h
        exact h
    | flipBack card1 card2 =>
      simp only at h
      rw [(flipBack_fields card1 card2 _).2.2.2.2.1] at h
      exact h
    | endGame =>
      simp only at h
      rw [(endGame_fields _).2.2.2.2.2.2.2] at h
      simp only at h
      cases hgt : g.gameTimer with
      | none => simpa [hgt] using h
      | some t =>
        rw [hgt] at h
        exact (List.mem_filter.1 h).1

theorem initGame_intervals (symbols : List Emoji) (random : Nat → Nat) (g : Game) (handle : Nat)
    (h : handle ∈ (initGame symbols random g).intervals) : handle ∈ g.intervals := by
  rw [(initGame_fields symbols random g).2.2.2.2.2.2.2.2] at h
  cases hgt : g.gameTimer with
  | none => simpa [hgt] using h
  | some t =>
    rw [hgt] at h
    exact (List.mem_filter.1 h).1

/-- C10. Timer does not leak: in every reachable state at most one interval
is running and it is the one stored in `gameTimer`; right after every
`initGame()` no interval is running and `timeElapsed`, `moves`,
`matchedPairs` are 0, `gameStarted`, `isChecking` are false, `flippedCards`
is empty; an event starts an interval only if it is an accepted selection
and no selection was accepted since the latest `initGame()`. -/
theorem timer_does_not_leak (symbols : List Emoji) (g : Game) (k : Nat)
    (h : Played symbols g k) :
    (g.intervals.length ≤ 1 ∧ ∀ handle, handle ∈ g.intervals → g.gameTimer = some handle) ∧
    (∀ g₀, g₀ = pageLoad ∨ g₀ = g → ∀ random : Nat → Nat,
      (initGame symbols random g₀).intervals = [] ∧
      (initGame symbols random g₀).gameTimer = none ∧
      (initGame symbols random g₀).timeElapsed = 0 ∧
      (initGame symbols random g₀).moves = 0 ∧
      (initGame symbols random g₀).matchedPairs = 0 ∧
      (initGame symbols random g₀).gameStarted = false ∧
      (initGame symbols random g₀).isChecking = false ∧
      (initGame symbols random g₀).flippedCards = []) ∧
    (∀ (ev : Event) (handle : Nat), handle ∈ (step symbols g ev).intervals →
      handle ∉ g.intervals → selects g ev = true ∧ k = 0) := by
  have hinv := h.inv
  refine ⟨?_, ?_, ?_⟩
  · rcases hinv.timer with ⟨h1, h2⟩ | ⟨t, h1, h2, _⟩
    · simp [h1]
    · simp [h1, h2]
  · intro g₀ hg₀ random
    have ht : (g₀.intervals = [] ∧ g₀.gameTimer = none) ∨
        (∃ t, g₀.intervals = [t] ∧ g₀.gameTimer = some t ∧ g₀.gameStarted = true) := by
      rcases hg₀ with rfl | rfl
      · exact Or.inl ⟨rfl, rfl⟩
      · exact hinv.timer
    obtain ⟨f1, f2, f3, f4, f5, f6, f7, -, f9⟩ := initGame_fields symbols random g₀
    rw [timer_cleared g₀ ht] at f9
    exact ⟨f9, f7, f4, f3, f2, f5, f6, f1⟩
  · intro ev handle hin hnot
    cases ev with
    | newGame random => exact absurd (initGame_intervals symbols random g handle hin) hnot
    | timeout i => exact absurd (fire_intervals symbols g i handle hin) hnot
    | tick t =>
      simp only [step] at hin
      split at hin
      · exact absurd hin hnot
      · exact absurd hin hnot
    | click c =>
      simp only [step] at hin
      by_cases hb : onBoard g c = true
      · by_cases ha : accepts g c = true
        · refine ⟨by simp [selects, hb, ha], ?_⟩
          simp only [hb, if_true, cardClick, ha] at hin
          rw [(handleCardClick_fields g c).2.2.2.2.2.1] at hin
          cases hs : g.gameStarted
          · by_contra hk
            have := hinv.started.2 (Nat.pos_of_ne_zero hk)
            rw [hs] at this
            cases this
          · rw [hs] at hin
            exact absurd hin hnot
        · simp only [hb, if_true, cardClick, ha] at hin
          exact absurd hin hnot
      · simp only [hb] at hin
        exact absurd hin hnot

theorem timer_does_not_leak_witness :
    (run emojis firstGame [Event.click 0, Event.tick 1, Event.click 1]).intervals.length ≤ 1 ∧
    (run emojis firstGame [Event.click 0, Event.tick 1, Event.click 1]).gameTimer = some 1 :=
  ⟨(timer_does_not_leak emojis _ 2
      (played_run emojis [Event.click 0, Event.tick 1, Event.click 1] firstGame 0
        (Played.ready identityDraws validDraws_identity) (by simp [Event.Legal]))).1.1,
   by decide⟩

/-! ## Face-up cards -/

theorem cardState_of_elems_eq {g g' : Game} {c : Nat} (h : g'.elems[c]? = g.elems[c]?) :
    cardState g' c = cardState g c := by
  simp [cardState, hasClassMatched, hasClassFlipped, h]

theorem initGame_board (symbols : List Emoji) (random : Nat → Nat) (g : Game) :
    (initGame symbols random g).boardStart = g.elems.length ∧
    (initGame symbols random g).elems = g.elems ++
      (shuffleArray random (symbols ++ symbols)).map
        (fun e => { emoji := e, flipped := false, matched := false }) := by
  have h := (resetGameState_fields g).2.2.2.2.2.2.2.1
  unfold initGame createGameBoard
  simp [h]

theorem faceUp_initGame (symbols : List Emoji) (random : Nat → Nat) (g : Game) :
    FaceUpTracked (initGame symbols random g) := by
  intro c hb hs
  exfalso
  obtain ⟨h1, h2⟩ := initGame_board symbols random g
  have hge : g.elems.length ≤ c := by
    simp [onBoard, h1] at hb
    exact hb.1
  have hf := ((cardState_flipped_iff _ c).1 hs).2
  unfold hasClassFlipped at hf
  rw [h2, List.getElem?_append_right hge] at hf
  simp only [List.getElem?_map] at hf
  cases hx : (shuffleArray random (symbols ++ symbols))[c - g.elems.length]? <;>
    simp [hx] at hf

theorem faceUp_cardClick (g : Game) (c0 : Nat) (h : FaceUpTracked g)
    (hacc : accepts g c0 = true) : FaceUpTracked (cardClick g c0) := by
  intro c hb hs
  simp only [cardClick, hacc, if_true] at hb hs ⊢
  have hel := handleCardClick_elems g c0
  have hff := handleCardClick_flippedCards g c0
  have hto := (handleCardClick_fields g c0).2.2.2.2.1
  by_cases hc : c = c0
  · left
    rw [hff, hc]
    simp
  · have hst : cardState (handleCardClick g c0) c = cardState g c := by
      apply cardState_of_elems_eq
      rw [hel]
      exact elems_setClassFlipped_of_ne true c0 c g hc
    have hb' : onBoard g c = true := by
      have hbs : (handleCardClick g c0).boardStart = g.boardStart := by
        unfold handleCardClick
        simp only [setClassFlipped, setTimeout, startGameTimer]
        split <;> split <;> rfl
      simp only [onBoard, hbs, (handleCardClick_fields g c0).2.1] at hb
      simpa [onBoard] using hb
    rw [hst] at hs
    rcases h c hb' hs with h1 | ⟨a, b, hm, hab⟩
    · left
      rw [hff]
      exact List.mem_append_left _ h1
    · right
      refine ⟨a, b, ?_, hab⟩
      rw [hto]
      split
      · exact List.mem_append_left _ hm
      · exact hm

theorem checkForMatch_ok_form (symbols : List Emoji) (g g' : Game)
    (h : checkForMatch symbols g = Except.ok g') :
    ∃ card1 card2 e1 e2, g.flippedCards[0]? = some card1 ∧ g.flippedCards[1]? = some card2 ∧
      g.elems[card1]? = some e1 ∧ g.elems[card2]? = some e2 ∧
      g' = allowNewClicks
        (if e1.emoji = e2.emoji then cardsMatch symbols card1 card2 g
         else setTimeout (Callback.flipBack card1 card2) g) := by
  unfold checkForMatch at h
  split at h
  · rename_i card1 card2 h1 h2
    split at h
    · rename_i emoji1 emoji2 h3 h4
      injection h with h
      unfold dataEmoji at h3 h4
      cases he1 : g.elems[card1]? with
      | none => simp [he1] at h3
      | some e1 =>
        cases he2 : g.elems[card2]? with
        | none => simp [he2] at h4
        | some e2 =>
          simp only [he1, Option.some.injEq] at h3
          simp only [he2, Option.some.injEq] at h4
          refine ⟨card1, card2, e1, e2, h1, h2, he1, he2, ?_⟩
          rw [h3, h4]
          exact h.symm
    · cases h
  · cases h

theorem cardsMatch_boardStart (symbols : List Emoji) (card1 card2 : Nat) (g : Game) :
    (cardsMatch symbols card1 card2 g).boardStart = g.boardStart ∧
    (cardsMatch symbols card1 card2 g).flippedCards = g.flippedCards := by
  unfold cardsMatch
  simp only [setTimeout, addClassMatched]
  split <;> exact ⟨rfl, rfl⟩

theorem onBoard_congr {g g' : Game} (h1 : g'.boardStart = g.boardStart)
    (h2 : g'.elems.length = g.elems.length) (c : Nat) : onBoard g' c = onBoard g c := by
  simp [onBoard, h1, h2]

theorem mem_two {c a b : Nat} {l : List Nat} (h0 : l[0]? = some a) (h1 : l[1]? = some b)
    (hl : l.length ≤ 2) (hc : c ∈ l) : c = a ∨ c = b := by
  match l, h0, h1, hl, hc with
  | [x, y], h0, h1, _, hc =>
    simp at h0 h1
    subst h0 h1
    simpa using hc
  | x :: y :: z :: rest, _, _, hl, _ => simp at hl
  | [x], _, h1, _, _ => simp at h1
  | [], h0, _, _, _ => simp at h0

theorem faceUp_fire (symbols : List Emoji) (g : Game) (k i : Nat) (hinv : Inv g k)
    (h : FaceUpTracked g) : FaceUpTracked (fire symbols g i) := by
  have hlen : g.flippedCards.length ≤ 2 := by
    cases hc : g.isChecking
    · have := hinv.idle hc; omega
    · have := (hinv.busy hc).1; omega
  unfold fire
  cases hcb : g.timeouts[i]? with
  | none => exact h
  | some cb =>
    cases cb with
    | checkForMatch =>
      simp only
      cases hrun : checkForMatch symbols { g with timeouts := g.timeouts.eraseIdx i } with
      | error msg =>
        simp only
        intro c hb hs
        rcases h c hb hs with h1 | ⟨a, b, hm, hab⟩
        · exact Or.inl h1
        · exact Or.inr ⟨a, b, mem_eraseIdx_of_ne hm hcb (by simp), hab⟩
      | ok g' =>
        simp only
        obtain ⟨c1, c2, e1, e2, h0, h1, he1, he2, hg'⟩ := checkForMatch_ok_form symbols _ g' hrun
        have hl1 : c1 < g.elems.length := (List.getElem?_eq_some.1 he1).1
        have hl2 : c2 < g.elems.length := (List.getElem?_eq_some.1 he2).1
        intro c hb hs
        by_cases heq : e1.emoji = e2.emoji
        · rw [if_pos heq] at hg'
          have hel : g'.elems = (addClassMatched c2 (addClassMatched c1
              { g with timeouts := g.timeouts.eraseIdx i })).elems := by
            rw [hg']
            exact cardsMatch_elems symbols c1 c2 { g with timeouts := g.timeouts.eraseIdx i }
          have hbs : g'.boardStart = g.boardStart := by
            rw [hg']
            exact (cardsMatch_boardStart symbols c1 c2
              { g with timeouts := g.timeouts.eraseIdx i }).1
          have hto : ∀ cb, cb ∈ g.timeouts.eraseIdx i → cb ∈ g'.timeouts := by
            rw [hg']
            exact (cardsMatch_fields symbols c1 c2
              { g with timeouts := g.timeouts.eraseIdx i }).2.2.2.2.2.2.2
          have hell : g'.elems.length = g.elems.length := by
            rw [hel]
            simp [addClassMatched]
          by_cases hc : c = c1 ∨ c = c2
          · exfalso
            have hm : hasClassMatched g' c = true := by
              have : hasClassMatched g' c = hasClassMatched (addClassMatched c2
                  (addClassMatched c1 { g with timeouts := g.timeouts.eraseIdx i })) c := by
                simp [hasClassMatched, hel]
              rw [this]
              rcases hc with rfl | rfl
              · simp [hasClassMatched_addClassMatched, elems_length_addClassMatched, hl1]
              · simp [hasClassMatched_addClassMatched, elems_length_addClassMatched, hl2]
            rw [((cardState_flipped_iff g' c).1 hs).1] at hm
            cases hm
          · have hc1 : c ≠ c1 := fun e => hc (Or.inl e)
            have hc2 : c ≠ c2 := fun e => hc (Or.inr e)
            have hst : cardState g' c = cardState g c := by
              apply cardState_of_elems_eq
              rw [hel, elems_addClassMatched_of_ne _ _ _ hc2,
                elems_addClassMatched_of_ne _ _ _ hc1]
            rw [hst] at hs
            rw [onBoard_congr hbs hell] at hb
            rcases h c hb hs with hin | ⟨a, b, hm, hab⟩
            · exact absurd (mem_two h0 h1 hlen hin) hc
            · exact Or.inr ⟨a, b, hto _ (mem_eraseIdx_of_ne hm hcb (by simp)), hab⟩
        · rw [if_neg heq] at hg'
          have hst : cardState g' c = cardState g c := by
            apply cardState_of_elems_eq
            rw [hg']
            rfl
          have hb' : onBoard g c = true := by
            rw [hg'] at hb
            exact hb
          rw [hst] at hs
          right
          rcases h c hb' hs with hin | ⟨a, b, hm, hab⟩
          · refine ⟨c1, c2, ?_, mem_two h0 h1 hlen hin⟩
            rw [hg']
            show Callback.flipBack c1 c2 ∈ g.timeouts.eraseIdx i ++ [Callback.flipBack c1 c2]
            simp
          · refine ⟨a, b, ?_, hab⟩
            rw [hg']
            show Callback.flipBack a b ∈ g.timeouts.eraseIdx i ++ [Callback.flipBack c1 c2]
            exact List.mem_append_left _ (mem_eraseIdx_of_ne hm hcb (by simp))
    | flipBack card1 card2 =>
      simp only
      intro c hb hs
      obtain ⟨hm, hf1, hf2, hoth⟩ :=
        flipBack_effect card1 card2 { g with timeouts := g.timeouts.eraseIdx i }
      have hfl := ((cardState_flipped_iff _ c).1 hs).2
      have hc1 : c ≠ card1 := by
        intro e
        rw [e, hf1] at hfl
        cases hfl
      have hc2 : c ≠ card2 := by
        intro e
        rw [e, hf2] at hfl
        cases hfl
      have hst : cardState (flipBack card1 card2 { g with timeouts := g.timeouts.eraseIdx i }) c
          = cardState g c := by
        apply cardState_of_elems_eq
        exact hoth c hc1 hc2
      have hb' : onBoard g c = true := by
        rw [← hb]
        simp [onBoard, flipBack, setClassFlipped]
      rw [hst] at hs
      rcases h c hb' hs with hin | ⟨a, b, hmem, hab⟩
      · exact Or.inl hin
      · refine Or.inr ⟨a, b, ?_, hab⟩
        show Callback.flipBack a b ∈ g.timeouts.eraseIdx i
        apply mem_eraseIdx_of_ne hmem hcb
        intro e
        injection e with ea eb
        rcases hab with hca | hcb'
        · exact hc1 (hca.trans ea)
        · exact hc2 (hcb'.trans eb)
    | endGame =>
      simp only
      intro c hb hs
      obtain ⟨f1, -, -, -, f5, f6, -, -⟩ :=
        endGame_fields { g with timeouts := g.timeouts.eraseIdx i }
      have hst : cardState (endGame { g with timeouts := g.timeouts.eraseIdx i }) c
          = cardState g c := by
        apply cardState_of_elems_eq
        rw [f5]
      have hb' : onBoard g c = true := by
        rw [← hb]
        have hbs : (endGame { g with timeouts := g.timeouts.eraseIdx i }).boardStart
            = g.boardStart := by
          unfold endGame clearInterval
          cases g.gameTimer <;> rfl
        simp [onBoard, hbs, f5]
      rw [hst] at hs
      rw [f1, f6]
      rcases h c hb' hs with hin | ⟨a, b, hmem, hab⟩
      · exact Or.inl hin
      · exact Or.inr ⟨a, b, mem_eraseIdx_of_ne hmem hcb (by simp), hab⟩

theorem faceUp_step (symbols : List Emoji) (g : Game) (k : Nat) (ev : Event) (hinv : Inv g k)
    (h : FaceUpTracked g) : FaceUpTracked (step symbols g ev) := by
  cases ev with
  | newGame random => exact faceUp_initGame symbols random g
  | click c =>
    simp only [step]
    by_cases hb : onBoard g c = true
    · by_cases ha : accepts g c = true
      · simpa [hb] using faceUp_cardClick g c h ha
      · simpa [hb, ha, cardClick] using h
    · simpa [hb] using h
  | timeout i => exact faceUp_fire symbols g k i hinv h
  | tick handle =>
    simp only [step]
    split
    · exact h
    · exact h

theorem Played.faceUp {symbols : List Emoji} {g : Game} {k : Nat} (h : Played symbols g k) :
    FaceUpTracked g := by
  induction h with
  | ready random _ => exact faceUp_initGame symbols random pageLoad
  | next ev _ hg ih => exact faceUp_step symbols _ _ ev hg.inv ih

/-! ## Turn resolution -/

theorem selects_click (g : Game) (c : Nat) (h : selects g (Event.click c) = true) :
    onBoard g c = true ∧ accepts g c = true := by
  simpa [selects] using h

theorem accepts_isChecking (g : Game) (c : Nat) (h : accepts g c = true) :
    g.isChecking = false := by
  unfold accepts at h
  cases hc : g.isChecking <;> simp_all

/-- C8 (as stated) fails: after a mismatch has been evaluated and before its
flip-back has run, a selection is accepted although two cards are face up and
unmatched. -/
theorem third_card_accepted_before_flipBack :
    ¬ (∀ (g : Game) (k : Nat), Played emojis g k →
        ∀ c, selects g (Event.click c) = true → (faceUpUnmatched g).length ≤ 1) := by
  intro H
  have hp := played_run emojis mismatchEvents firstGame 0
    (Played.ready identityDraws validDraws_identity) (by simp [mismatchEvents, Event.Legal])
  have h2 := H _ _ hp 2 (by decide)
  revert h2
  decide

/-- C8 (amended). Turn resolution blocks input until `checkForMatch` has run
or the game is restarted.  (a) Accepting the second selection of a turn sets
`isChecking` and schedules a `checkForMatch` callback.  (b) While `isChecking`
is set, every click leaves the whole state unchanged, two cards are in
`flippedCards` and a `checkForMatch` callback is pending.  (c) `isChecking`
stays set under every event other than a restart and the run of a pending
`checkForMatch` callback.  (d) The run of a pending `checkForMatch` callback
while `isChecking` is set clears `isChecking` and empties `flippedCards` in
that same callback; for a mismatched pair it only schedules the flip-back and
leaves the card elements as they are.  (e) A restart clears `isChecking` and
empties `flippedCards`.  (f) In every reachable state in which a selection is
accepted, at most one card is in `flippedCards`; every face-up, unmatched
card on the board is in `flippedCards` or is one of the two cards of a
pending flip-back. -/
theorem turn_resolution (symbols : List Emoji) (g : Game) (k : Nat)
    (h : Played symbols g k) :
    (∀ c, selects g (Event.click c) = true → g.flippedCards.length = 1 →
      (step symbols g (Event.click c)).isChecking = true ∧
      Callback.checkForMatch ∈ (step symbols g (Event.click c)).timeouts) ∧
    (g.isChecking = true →
      (∀ c, step symbols g (Event.click c) = g) ∧ g.flippedCards.length = 2 ∧
      Callback.checkForMatch ∈ g.timeouts ∧
      ∀ i, g.timeouts[i]? = some Callback.checkForMatch →
        (step symbols g (Event.timeout i)).isChecking = false ∧
        (step symbols g (Event.timeout i)).flippedCards = []) ∧
    (g.isChecking = true → ∀ ev : Event,
      (step symbols g ev).isChecking = true ∨ (∃ random, ev = Event.newGame random) ∨
      (∃ i, ev = Event.timeout i ∧ g.timeouts[i]? = some Callback.checkForMatch)) ∧
    (g.isChecking = true → ∀ (i card1 card2 : Nat) (e1 e2 : CardElem),
      g.timeouts[i]? = some Callback.checkForMatch → g.flippedCards = [card1, card2] →
      g.elems[card1]? = some e1 → g.elems[card2]? = some e2 → e1.emoji ≠ e2.emoji →
      (step symbols g (Event.timeout i)).isChecking = false ∧
      Callback.flipBack card1 card2 ∈ (step symbols g (Event.timeout i)).timeouts ∧
      (step symbols g (Event.timeout i)).elems = g.elems) ∧
    (∀ random : Nat → Nat,
      (step symbols g (Event.newGame random)).isChecking = false ∧
      (step symbols g (Event.newGame random)).flippedCards = []) ∧
    (∀ c, selects g (Event.click c) = true → g.flippedCards.length ≤ 1) ∧
    (∀ c, onBoard g c = true → cardState g c = CardState.flipped →
      c ∈ g.flippedCards ∨ ∃ a b, Callback.flipBack a b ∈ g.timeouts ∧ (c = a ∨ c = b)) := by
  have hinv := h.inv
  have hclick : g.isChecking = true → ∀ c, step symbols g (Event.click c) = g := by
    intro hchk c
    have ha : accepts g c = false := by simp [accepts, hchk]
    simp only [step, cardClick, ha]
    split <;> rfl
  refine ⟨?_, ?_, ?_, ?_, ?_, ?_, h.faceUp⟩
  · intro c hsel hlen
    obtain ⟨hb, ha⟩ := selects_click g c hsel
    simp only [step, hb, if_true, cardClick, ha]
    rw [(handleCardClick_fields g c).2.2.2.1, (handleCardClick_fields g c).2.2.2.2.1,
      if_pos hlen, if_pos hlen]
    exact ⟨rfl, by simp⟩
  · intro hchk
    obtain ⟨b1, b2, b3⟩ := hinv.busy hchk
    refine ⟨hclick hchk, b1, b3, ?_⟩
    intro i hi
    obtain ⟨c1, c2, e1, e2, -, -, -, hok⟩ := checkForMatch_ok symbols
      { g with timeouts := g.timeouts.eraseIdx i } b1 hinv.valid
    have hf := checkForMatch_fields symbols _ _ hok
    simp only [step, fire, hi, hok]
    exact ⟨hf.2.1, hf.1⟩
  · intro hchk ev
    cases ev with
    | newGame random => exact Or.inr (Or.inl ⟨random, rfl⟩)
    | click c =>
      left
      rw [hclick hchk c]
      exact hchk
    | tick handle =>
      left
      simp only [step]
      split
      · exact hchk
      · exact hchk
    | timeout i =>
      cases hcb : g.timeouts[i]? with
      | none =>
        left
        simp only [step, fire, hcb]
        exact hchk
      | some cb =>
        cases cb with
        | checkForMatch => exact Or.inr (Or.inr ⟨i, rfl, hcb⟩)
        | flipBack card1 card2 =>
          left
          simp only [step, fire, hcb]
          rw [(flipBack_fields card1 card2 _).2.1]
          exact hchk
        | endGame =>
          left
          simp only [step, fire, hcb]
          rw [(endGame_fields _).2.1]
          exact hchk
  · intro hchk i card1 card2 e1 e2 hi hfc h1 h2 hne
    obtain ⟨b1, -, -⟩ := hinv.busy hchk
    obtain ⟨c1, c2, e1', e2', hfc', h1', h2', hok⟩ := checkForMatch_ok symbols
      { g with timeouts := g.timeouts.eraseIdx i } b1 hinv.valid
    have hfc'' : g.flippedCards = [c1, c2] := hfc'
    rw [hfc] at hfc''
    injection hfc'' with hc1 hrest
    injection hrest with hc2 _
    subst hc1
    subst hc2
    have h1'' : g.elems[card1]? = some e1' := h1'
    have h2'' : g.elems[card2]? = some e2' := h2'
    rw [h1] at h1''
    rw [h2] at h2''
    injection h1'' with he1
    injection h2'' with he2
    subst he1
    subst he2
    rw [if_neg hne] at hok
    have hstep : step symbols g (Event.timeout i) = allowNewClicks
        (setTimeout (Callback.flipBack card1 card2)
          { g with timeouts := g.timeouts.eraseIdx i }) := by
      simp only [step, fire, hi, hok]
    rw [hstep]
    refine ⟨rfl, ?_, rfl⟩
    show Callback.flipBack card1 card2 ∈
      g.timeouts.eraseIdx i ++ [Callback.flipBack card1 card2]
    simp
  · intro random
    obtain ⟨f1, -, -, -, -, f6, -⟩ := initGame_fields symbols random g
    exact ⟨f6, f1⟩
  · intro c hsel
    have hidle := hinv.idle (accepts_isChecking g c (selects_click g c hsel).2)
    omega

theorem turn_resolution_witness :
    (run emojis firstGame [Event.click 0, Event.click 1]).isChecking = true ∧
    step emojis (run emojis firstGame [Event.click 0, Event.click 1]) (Event.click 2) =
      run emojis firstGame [Event.click 0, Event.click 1] ∧
    (step emojis (run emojis firstGame [Event.click 0, Event.click 1])
      (Event.timeout 0)).isChecking = false :=
  ⟨by decide,
   ((turn_resolution emojis _ 2
      (played_run emojis [Event.click 0, Event.click 1] firstGame 0
        (Played.ready identityDraws validDraws_identity) (by simp [Event.Legal]))).2.1
      (by decide)).1 2,
   (((turn_resolution emojis _ 2
      (played_run emojis [Event.click 0, Event.click 1] firstGame 0
        (Played.ready identityDraws validDraws_identity) (by simp [Event.Legal]))).2.1
      (by decide)).2.2.2 0 (by decide)).1⟩

/-! ## Callbacks of an earlier game -/

set_option maxRecDepth 100000

/-- C9 fails on the code: `initGame` does not cancel the pending one-shot
callbacks.  (1) A `checkForMatch` left over from the previous game throws
when it fires on the fresh game.  (2) When it fires while the new game waits
for the evaluation of its own pair, it evaluates that pair itself (here a
match on the new deck), clears `isChecking`, and the new game's own callback
then throws.  (3) An `endGame` left over from a won game stops the timer of
the new game and shows the win dialog. -/
theorem stale_callbacks_change_new_game :
    ((run emojis firstGame restartEvents).timeouts = [Callback.checkForMatch] ∧
      checkForMatch emojis (run emojis firstGame restartEvents) =
        Except.error "TypeError: Cannot read properties of undefined (reading 'data')") ∧
    ((run emojis firstGame restartSelectEvents).timeouts =
        [Callback.checkForMatch, Callback.checkForMatch] ∧
      (run emojis firstGame restartSelectEvents).isChecking = true ∧
      (run emojis firstGame restartSelectEvents).flippedCards = [16, 24] ∧
      (run emojis firstGame restartSelectEvents).matchedPairs = 0 ∧
      (step emojis (run emojis firstGame restartSelectEvents) (Event.timeout 0)).isChecking
        = false ∧
      (step emojis (run emojis firstGame restartSelectEvents) (Event.timeout 0)).flippedCards
        = [] ∧
      (step emojis (run emojis firstGame restartSelectEvents) (Event.timeout 0)).matchedPairs
        = 1 ∧
      cardState (step emojis (run emojis firstGame restartSelectEvents) (Event.timeout 0)) 16
        = CardState.matched ∧
      (step emojis (run emojis firstGame restartSelectEvents) (Event.timeout 0)).timeouts
        = [Callback.checkForMatch] ∧
      checkForMatch emojis
          (step emojis (run emojis firstGame restartSelectEvents) (Event.timeout 0)) =
        Except.error "TypeError: Cannot read properties of undefined (reading 'data')") ∧
    ((run emojis firstGame winRestartEvents).timeouts = [Callback.endGame] ∧
      (run emojis firstGame winRestartEvents).gameTimer = some 11 ∧
      (run emojis firstGame winRestartEvents).intervals = [11] ∧
      (run emojis firstGame winRestartEvents).winModal = [] ∧
      (step emojis (run emojis firstGame winRestartEvents) (Event.timeout 0)).gameTimer = none ∧
      (step emojis (run emojis firstGame winRestartEvents) (Event.timeout 0)).intervals = [] ∧
      (step emojis (run emojis firstGame winRestartEvents) (Event.timeout 0)).gameStarted
        = true ∧
      (step emojis (run emojis firstGame winRestartEvents) (Event.timeout 0)).winModal
        = [(0, some "00:00")]) := by
  refine ⟨⟨by decide, rfl⟩,
    ⟨by decide, by decide, by decide, by decide, by decide, by decide, by decide, by decide,
      by decide, rfl⟩,
    ⟨by decide, by decide, by decide, by decide, by decide, by decide, by decide, by decide⟩⟩

/-! ## Game completion -/

/-- C5 fails on the code.  The scenario of the specification runs as stated:
on the deck `[A, B, A, B]` the selections 0,1 / 0,2 / 1,3 end with
`matchedPairs = 2` and one `endGame` reporting 3 moves and the one tick that
fired.  But after a won game, a restart before the completion callback has
fired lets `endGame` run in the new game: there `matchedPairs` is 0, no pair
has been evaluated, and the dialog reports 0 moves. -/
theorem endGame_runs_in_unfinished_game :
    ((run ["A", "B"] demoGame demoEvents).matchedPairs = 2 ∧
      (run ["A", "B"] demoGame demoEvents).moves = 3 ∧
      (run ["A", "B"] demoGame demoEvents).winModal = [(3, some "00:01")] ∧
      (run ["A", "B"] demoGame demoEvents).intervals = []) ∧
    ((run emojis firstGame winningEvents).matchedPairs = 8 ∧
      (run emojis firstGame winningEvents).timeouts = [Callback.endGame] ∧
      (run emojis firstGame winRestartEvents).timeouts = [Callback.endGame] ∧
      (run emojis firstGame winRestartEvents).matchedPairs = 0 ∧
      (faceUpUnmatched (run emojis firstGame winRestartEvents)) = [16] ∧
      (step emojis (run emojis firstGame winRestartEvents) (Event.timeout 0)).winModal
        = [(0, some "00:00")] ∧
      (step emojis (run emojis firstGame winRestartEvents) (Event.timeout 0)).matchedPairs
        = 0) := by
  refine ⟨⟨by decide, by decide, by decide, by decide⟩,
    ⟨by decide, by decide, by decide, by decide, by decide, by decide, by decide⟩⟩

end Flipcard
